import Mathlib

/-!
# jenkins-client: build lifecycle of `client.go`

A shallow embedding of `client.go` (the bounded retrier, the console stream
reader, the build state poller, queue resolution, the job trigger and the
orchestrator `execute`) together with the properties proved about it.

Conventions of the embedding

* A Go `string` is a sequence of bytes.  It is embedded as a list of
  characters (`Str`); a byte string is read as the list of its bytes, one
  character per byte, and the functions of package `strings` used by the
  program (`Index`, `Contains`, `Split`, slicing) act on such lists exactly
  as they act on bytes.
* `int`, `int64` and `time.Duration` are embedded as `Int`.  The only
  arithmetic the program performs on them is `errCnt++` (bounded by the
  retry limit) and `Index(..) + len("/job/")` (bounded by a string length),
  neither of which can overflow 64 bits.
* The remote build server, the clock and the two output streams form the
  world in which the program runs.  The server and the clock are an
  arbitrary state machine `Env σ`; every remote call, every wait and every
  write is appended to the trace of the `World`.
* Loops that the source leaves unbounded take a fuel argument; a run that
  does not return within the fuel is `Run.outOfFuel`.  A run-time panic is
  `Run.panic`.
-/

namespace JenkinsClient

/-- A Go string: a sequence of bytes, one character per byte. -/
abbrev Str := List Char

/-! ## Package `strings` -/

namespace strings

/-- Go `strings.HasPrefix(s, pre)`. -/
def HasPrefix (s pre : Str) : Bool := pre.isPrefixOf s

/-- Scan of `strings.Index`: `i` is the offset of the remaining text. -/
def indexFrom (sep : Str) : Str → Nat → Int
  | [], i => if sep.isEmpty then (i : Int) else -1
  | c :: cs, i => if HasPrefix (c :: cs) sep then (i : Int) else indexFrom sep cs (i + 1)

/-- Go `strings.Index(s, sep)`: offset of the first occurrence of `sep` in
`s`, or `-1` when there is none. -/
def Index (s sep : Str) : Int := indexFrom sep s 0

/-- Go `strings.Contains(s, sub)`, which is `Index(s, sub) >= 0`. -/
def Contains (s sub : Str) : Bool := decide (0 ≤ Index s sub)

/-- Scan of `strings.Split` for a non-empty separator: `skip` counts the
bytes of a separator still to be passed over, `cur` is the piece being
collected. -/
def splitLoop (sep : Str) : Str → Nat → Str → List Str
  | [], _, cur => [cur]
  | _ :: cs, skip + 1, cur => splitLoop sep cs skip cur
  | c :: cs, 0, cur =>
    if HasPrefix (c :: cs) sep then cur :: splitLoop sep cs (sep.length - 1) []
    else splitLoop sep cs 0 (cur ++ [c])

/-- Go `strings.Split(s, sep)`: the pieces of `s` between the successive
non-overlapping occurrences of `sep`; with an empty separator the string is
split after every byte. -/
def Split (s sep : Str) : List Str :=
  if sep.isEmpty then s.map (fun c => [c]) else splitLoop sep s 0 []

/-- The slice expression `s[first:]`; `none` is the run-time panic
"slice bounds out of range". -/
def sliceFrom (s : Str) (first : Int) : Option Str :=
  if 0 ≤ first ∧ first ≤ (s.length : Int) then some (s.drop first.toNat) else none

end strings

/-! ## Errors -/

/-- A Go `error` value.  `text` is what `err.Error()` returns; it is all the
program ever reads.  `status` records the HTTP status code of the server
response the error reports (`0` when it reports none, as for a transport
failure); it is carried along so that properties can speak about the kind
of a failure independently of its message. -/
structure GoError where
  status : Nat
  text : Str
deriving DecidableEq, Repr

namespace errors

/-- Go `errors.Errorf(msg)` of `github.com/pkg/errors`: a fresh error. -/
def Errorf (msg : Str) : GoError := ⟨0, msg⟩

/-- Go `errors.Wrapf(err, msg)` for a non-nil `err`: the message becomes
`msg + ": " + err.Error()`, the cause is kept. -/
def Wrapf (err : GoError) (msg : Str) : GoError :=
  ⟨err.status, msg ++ ": ".toList ++ err.text⟩

end errors

/-! ## The world: remote server, clock and output streams -/

/-- A `*gojenkins.Job`: a handle to a job on the server. -/
structure Job where
  id : Nat
deriving DecidableEq, Repr

/-- A `*gojenkins.Build`: a handle to one execution of a job.  The fields of
`build.Raw` are refreshed by the server calls and live in the server state. -/
structure Build where
  id : Nat
deriving DecidableEq, Repr

/-- The two fields of `task.Raw` the program reads: `Executable.Number` and
`Task.URL`. -/
structure Task where
  number : Int
  url : Str
deriving DecidableEq, Repr

/-- The `consoleResponse` of `GetConsoleOutputFromIndex`. -/
structure ConsoleResponse where
  Content : Str
  Offset : Int
  HasMoreText : Bool
deriving DecidableEq, Repr

/-- The parsed job parameters, a `map[string]string`. -/
abbrev Params := List (Str × Str)

/-- A `context.Context`: `deadline = none` is a context without deadline
(`context.Background()`). -/
structure Context where
  deadline : Option Int
deriving DecidableEq, Repr

/-- Go `context.Background()`. -/
def Context.background : Context := ⟨none⟩

/-- An `io.Writer` handed to the program: `os.Stdout` or `os.Stderr`. -/
inductive Writer
  | stdout
  | stderr
deriving DecidableEq, Repr

/-- The remote calls the program makes, with their arguments. -/
inductive Call
  | init
  | getJob (name : Str) (parents : List Str)
  | getBuild (job : Job) (number : Int)
  | invokeSimple (job : Job) (params : Params)
  | getQueueItem (queueID : Int)
  | taskPoll (task : Task)
  | buildPoll (build : Build)
  | isRunning (build : Build)
  | isGood (build : Build)
  | consoleOutput (build : Build) (start : Int)
deriving DecidableEq, Repr

/-- What the program does to the world, in the order it does it. -/
inductive Event
  | call (c : Call)
  | tick (interval : Int)
  | sleep (d : Int)
  | write (out : Writer) (text : Str)
deriving DecidableEq, Repr

/-- The remote server, the JSON decoder and the clock, as seen by the
program: every operation maps the state before the call to its answer and
the state after it.  Nothing is assumed about the answers. -/
structure Env (σ : Type) where
  /-- The clock, in nanoseconds. -/
  now : σ → Int
  /-- Waiting for the next tick of a ticker of the given interval. -/
  tick : Int → σ → σ
  /-- Go `time.Sleep`. -/
  sleep : Int → σ → σ
  /-- Go `jenkins.Init(ctx)` after `CreateJenkins(nil, baseURL, user, password)`. -/
  init : Context → Str → Str → Str → σ → Option GoError × σ
  /-- Go `jenkins.GetJob(ctx, id, parentIDs...)`. -/
  getJob : Context → Str → List Str → σ → Except GoError Job × σ
  /-- Go `job.GetBuild(ctx, number)`. -/
  getBuild : Context → Job → Int → σ → Except GoError Build × σ
  /-- Go `job.InvokeSimple(ctx, params)`. -/
  invokeSimple : Context → Job → Params → σ → Except GoError Int × σ
  /-- Go `jenkins.GetQueueItem(ctx, queueID)`. -/
  getQueueItem : Context → Int → σ → Except GoError Task × σ
  /-- Go `task.Poll(ctx)`: the refreshed `task.Raw`, or the error. -/
  taskPoll : Context → Task → σ → Except GoError Task × σ
  /-- Go `build.Poll(ctx)`. -/
  buildPoll : Context → Build → σ → Option GoError × σ
  /-- Go `build.IsRunning(ctx)`. -/
  isRunning : Context → Build → σ → Bool × σ
  /-- Go `build.IsGood(ctx)`. -/
  isGood : Context → Build → σ → Bool × σ
  /-- Go `build.GetConsoleOutputFromIndex(ctx, start)`. -/
  getConsoleOutputFromIndex : Context → Build → Int → σ → Except GoError ConsoleResponse × σ
  /-- Go `build.Raw.Number`. -/
  buildNumber : Build → σ → Int
  /-- Go `build.GetUrl()`. -/
  buildUrl : Build → σ → Str
  /-- Go `json.Unmarshal([]byte(jobParameters), &parsedJobParameters)`. -/
  parseParams : Str → Except GoError Params

/-- The state of the server and clock together with everything the program
has done so far. -/
structure World (σ : Type) where
  st : σ
  trace : List Event

/-- The result of running a piece of the program. -/
inductive Run (σ α : Type)
  | outOfFuel
  | panic (reason : Str) (w : World σ)
  | ret (a : α) (w : World σ)

variable {σ : Type}

/-- Append an event to the trace and move to the state `s`. -/
def World.record (w : World σ) (e : Event) (s : σ) : World σ :=
  ⟨s, w.trace ++ [e]⟩

/-- Lift a remote call to worlds, recording it. -/
def remote {α : Type} (c : Call) (op : σ → α × σ) (w : World σ) : α × World σ :=
  ((op w.st).1, w.record (.call c) (op w.st).2)

/-- Go `fmt.Fprint(out, text)`. -/
def Fprint (out : Writer) (text : Str) (w : World σ) : World σ :=
  w.record (.write out text) w.st

/-- Go `fmt.Fprintln(out, text)`. -/
def Fprintln (out : Writer) (text : Str) (w : World σ) : World σ :=
  Fprint out (text ++ "\n".toList) w

/-- Go `time.Sleep(d)`. -/
def Sleep (env : Env σ) (d : Int) (w : World σ) : World σ :=
  w.record (.sleep d) (env.sleep d w.st)

/-- Receiving the next tick from `time.NewTicker(interval).C`. -/
def nextTick (env : Env σ) (interval : Int) (w : World σ) : World σ :=
  w.record (.tick interval) (env.tick interval w.st)

/-- Whether `ctx.Done()` is closed: the deadline of the context has been
reached. -/
def Context.isDone (env : Env σ) (ctx : Context) (w : World σ) : Bool :=
  match ctx.deadline with
  | none => false
  | some d => decide (d ≤ env.now w.st)

/-- Go `context.WithTimeout(ctx, timeout)`: the deadline is `timeout` from
now, unless the parent's deadline is earlier. -/
def Context.WithTimeout (env : Env σ) (ctx : Context) (timeout : Int) (w : World σ) : Context :=
  match ctx.deadline with
  | none => ⟨some (env.now w.st + timeout)⟩
  | some d => ⟨some (min d (env.now w.st + timeout))⟩

/-! ## The remote calls, recorded -/

/-- Go `jenkins.Init(ctx)`. -/
abbrev Init (env : Env σ) (ctx : Context) (baseURL user password : Str) (w : World σ) :=
  remote .init (env.init ctx baseURL user password) w

/-- Go `jenkins.GetJob(ctx, id, parentIDs...)`. -/
abbrev GetJob (env : Env σ) (ctx : Context) (id : Str) (parentIDs : List Str) (w : World σ) :=
  remote (.getJob id parentIDs) (env.getJob ctx id parentIDs) w

/-- Go `job.GetBuild(ctx, number)`. -/
abbrev GetBuild (env : Env σ) (ctx : Context) (job : Job) (number : Int) (w : World σ) :=
  remote (.getBuild job number) (env.getBuild ctx job number) w

/-- Go `job.InvokeSimple(ctx, params)`. -/
abbrev InvokeSimple (env : Env σ) (ctx : Context) (job : Job) (params : Params) (w : World σ) :=
  remote (.invokeSimple job params) (env.invokeSimple ctx job params) w

/-- Go `jenkins.GetQueueItem(ctx, queueID)`. -/
abbrev GetQueueItem (env : Env σ) (ctx : Context) (queueID : Int) (w : World σ) :=
  remote (.getQueueItem queueID) (env.getQueueItem ctx queueID) w

/-- Go `task.Poll(ctx)`. -/
abbrev TaskPoll (env : Env σ) (ctx : Context) (task : Task) (w : World σ) :=
  remote (.taskPoll task) (env.taskPoll ctx task) w

/-- Go `build.Poll(ctx)`. -/
abbrev BuildPoll (env : Env σ) (ctx : Context) (build : Build) (w : World σ) :=
  remote (.buildPoll build) (env.buildPoll ctx build) w

/-- Go `build.IsRunning(ctx)`. -/
abbrev IsRunning (env : Env σ) (ctx : Context) (build : Build) (w : World σ) :=
  remote (.isRunning build) (env.isRunning ctx build) w

/-- Go `build.IsGood(ctx)`. -/
abbrev IsGood (env : Env σ) (ctx : Context) (build : Build) (w : World σ) :=
  remote (.isGood build) (env.isGood ctx build) w

/-- Go `build.GetConsoleOutputFromIndex(ctx, start)`. -/
abbrev GetConsoleOutputFromIndex (env : Env σ) (ctx : Context) (build : Build) (start : Int)
    (w : World σ) :=
  remote (.consoleOutput build start) (env.getConsoleOutputFromIndex ctx build start) w

/-- Go `%d` of an integer. -/
def fmtInt (n : Int) : Str := (toString n).toList

/-! ## `repeatNTimes` -/

/-- The loop of `repeatNTimes`.  `fn` is the closure: it reads and updates
the variables it captures (`κ`) and the world. -/
def repeatNTimesLoop {κ : Type} (env : Env σ) (limit : Int)
    (fn : κ → World σ → Option GoError × κ × World σ) :
    Nat → Int → κ → World σ → Run σ (Option GoError × κ)
  | 0, _, _, _ => .outOfFuel
  | fuel + 1, errCnt, k, w =>
    match fn k w with
    | (none, k1, w1) => .ret (none, k1) w1
    | (some err, k1, w1) =>
      if errCnt = limit then .ret (some err, k1) w1
      else repeatNTimesLoop env limit fn fuel (errCnt + 1) k1 (Sleep env 100000000 w1)

/-- Go `repeatNTimes(limit, fn)`.  The loop counts `errCnt` from `0` up to
`limit`, so `limit + 1` iterations are all it can make for `limit >= 0`. -/
def repeatNTimes {κ : Type} (env : Env σ) (limit : Int)
    (fn : κ → World σ → Option GoError × κ × World σ) (k : κ) (w : World σ) :
    Run σ (Option GoError × κ) :=
  repeatNTimesLoop env limit fn (limit.toNat + 1) 0 k w

/-! ## `readBuildOutput` -/

/-- The closure passed to `repeatNTimes` in `readBuildOutput`; it captures
`currentOutputID` and `hasMoreText`. -/
def readBuildOutputFn (env : Env σ) (ctx : Context) (output errOutput : Writer) (build : Build) :
    Int × Bool → World σ → Option GoError × (Int × Bool) × World σ
  | (currentOutputID, hasMoreText), w =>
    match GetConsoleOutputFromIndex env ctx build currentOutputID w with
    | (.error err, w1) =>
      let err := errors.Wrapf err "failed to get console output".toList
      (some err, (currentOutputID, hasMoreText), Fprintln errOutput err.text w1)
    | (.ok resp, w1) =>
      (none, (resp.Offset, resp.HasMoreText),
        if resp.Content.length ≠ 0 then Fprint output resp.Content w1 else w1)

/-- The `for hasMoreText` loop of `readBuildOutput`. -/
def readBuildOutputLoop (env : Env σ) (ctx : Context) (output errOutput : Writer) (build : Build) :
    Nat → Int → Bool → World σ → Run σ (Int × Option GoError)
  | 0, _, _, _ => .outOfFuel
  | fuel + 1, currentOutputID, hasMoreText, w =>
    if hasMoreText then
      match repeatNTimes env 5 (readBuildOutputFn env ctx output errOutput build)
          (currentOutputID, hasMoreText) w with
      | .outOfFuel => .outOfFuel
      | .panic r w1 => .panic r w1
      | .ret (some err, (cur, _)) w1 => .ret (cur, some err) w1
      | .ret (none, (cur, more)) w1 =>
        readBuildOutputLoop env ctx output errOutput build fuel cur more w1
    else .ret (currentOutputID, none) w

/-- Go `readBuildOutput(ctx, output, errOutput, currentOutputID, build)`. -/
def readBuildOutput (fuel : Nat) (env : Env σ) (ctx : Context) (output errOutput : Writer)
    (currentOutputID : Int) (build : Build) (w : World σ) : Run σ (Int × Option GoError) :=
  readBuildOutputLoop env ctx output errOutput build fuel currentOutputID true w

/-! ## `readBuildState` -/

/-- The closure passed to `repeatNTimes` in `readBuildState`. -/
def readBuildStateFn (env : Env σ) (ctx : Context) (errOutput : Writer) (build : Build) :
    Unit → World σ → Option GoError × Unit × World σ
  | (), w =>
    match BuildPoll env ctx build w with
    | (none, w1) => (none, (), w1)
    | (some err, w1) =>
      let err := errors.Wrapf err "failed to read build state".toList
      (some err, (), Fprintln errOutput err.text w1)

/-- Go `readBuildState(ctx, errOutput, build)`. -/
def readBuildState (env : Env σ) (ctx : Context) (errOutput : Writer) (build : Build)
    (w : World σ) : Run σ (Option GoError) :=
  match repeatNTimes env 5 (readBuildStateFn env ctx errOutput build) () w with
  | .outOfFuel => .outOfFuel
  | .panic r w1 => .panic r w1
  | .ret (err, _) w1 => .ret err w1

/-! ## `waitBuildToComplete` -/

/-- Lines 114-119 of `waitBuildToComplete`: `readBuildOutput` is called when
`output != nil`; otherwise `currentOutputID` and `err` stay as they are. -/
def drainOutput (fuel : Nat) (env : Env σ) (ctx : Context) (output : Option Writer)
    (errOutput : Writer) (currentOutputID : Int) (build : Build) (w : World σ) :
    Run σ (Int × Option GoError) :=
  match output with
  | none => .ret (currentOutputID, none) w
  | some out => readBuildOutput fuel env ctx out errOutput currentOutputID build w

/-- The `for range time.NewTicker(poolingInterval).C` loop of
`waitBuildToComplete`; `fuel` bounds the inner loops. -/
def waitBuildToCompleteLoop (fuel : Nat) (env : Env σ) (ctx : Context) (output : Option Writer)
    (errOutput : Writer) (poolingInterval : Int) (build : Build) :
    Nat → Int → World σ → Run σ (Option GoError)
  | 0, _, _ => .outOfFuel
  | ticks + 1, currentOutputID, w0 =>
    let w := nextTick env poolingInterval w0
    if ctx.isDone env w then
      .ret (some (errors.Errorf "reached timeout on waiting for build results".toList)) w
    else
      match drainOutput fuel env ctx output errOutput currentOutputID build w with
      | .outOfFuel => .outOfFuel
      | .panic r w1 => .panic r w1
      | .ret (_, some err) w1 => .ret (some err) w1
      | .ret (cur, none) w1 =>
        match readBuildState env ctx errOutput build w1 with
        | .outOfFuel => .outOfFuel
        | .panic r w2 => .panic r w2
        | .ret (some err) w2 => .ret (some err) w2
        | .ret none w2 =>
          match IsRunning env ctx build w2 with
          | (false, w3) => .ret none w3
          | (true, w3) =>
            waitBuildToCompleteLoop fuel env ctx output errOutput poolingInterval build
              ticks cur w3

/-- Go `waitBuildToComplete(ctx, output, errOutput, poolingInterval, build)`.
`time.NewTicker` panics on a non-positive interval. -/
def waitBuildToComplete (fuel : Nat) (env : Env σ) (ctx : Context) (output : Option Writer)
    (errOutput : Writer) (poolingInterval : Int) (build : Build) (w : World σ) :
    Run σ (Option GoError) :=
  if poolingInterval ≤ 0 then .panic "non-positive interval for NewTicker".toList w
  else waitBuildToCompleteLoop fuel env ctx output errOutput poolingInterval build fuel 0 w

/-! ## `waitForJobToBePickedUp` -/

/-- The test `strings.Contains(err.Error(), "404")`. -/
def mentions404 (err : GoError) : Bool := strings.Contains err.text "404".toList

/-- Lines 166-168 of `waitForJobToBePickedUp`: the arguments
`parents[len(parents)-1]` and `parents[:len(parents)-1]` of `GetJob`,
computed from the task URL.  `none` is a run-time panic (slice bounds or
index out of range). -/
def jobPath (url : Str) : Option (Str × List Str) :=
  let first := strings.Index url "/job/".toList + ("/job/".toList.length : Int)
  match strings.sliceFrom url first with
  | none => none
  | some rest =>
    let parents := strings.Split rest "/job/".toList
    match parents[parents.length - 1]? with
    | none => none
    | some leaf => some (leaf, parents.take (parents.length - 1))

/-- The `for range time.NewTicker(poolingInterval).C` loop of
`waitForJobToBePickedUp`.  The result is the pair `(build, err)`.  The
channel of a ticker is never closed, so the loop is left only by `return`;
the statement that follows it in the source (line 184) is never reached. -/
def waitForJobToBePickedUpLoop (env : Env σ) (ctx : Context) (poolingInterval : Int)
    (queueID : Int) : Nat → World σ → Run σ (Option Build × Option GoError)
  | 0, _ => .outOfFuel
  | ticks + 1, w0 =>
    let w := nextTick env poolingInterval w0
    if ctx.isDone env w then
      .ret (none, some (errors.Errorf "reached timeout on waiting for build results".toList)) w
    else
      match GetQueueItem env ctx queueID w with
      | (.error err, w1) =>
        if mentions404 err then
          waitForJobToBePickedUpLoop env ctx poolingInterval queueID ticks w1
        else .ret (none, some err) w1
      | (.ok task, w1) =>
        match TaskPoll env ctx task w1 with
        | (.error err, w2) =>
          if mentions404 err then
            waitForJobToBePickedUpLoop env ctx poolingInterval queueID ticks w2
          else .ret (none, some err) w2
        | (.ok task, w2) =>
          if task.number = 0 then
            waitForJobToBePickedUpLoop env ctx poolingInterval queueID ticks w2
          else
            match jobPath task.url with
            | none => .panic "slice bounds out of range".toList w2
            | some (leaf, parents) =>
              match GetJob env ctx leaf parents w2 with
              | (.error err, w3) =>
                if mentions404 err then
                  waitForJobToBePickedUpLoop env ctx poolingInterval queueID ticks w3
                else .ret (none, some err) w3
              | (.ok job, w3) =>
                match GetBuild env ctx job task.number w3 with
                | (.ok build, w4) => .ret (some build, none) w4
                | (.error err, w4) =>
                  if mentions404 err then
                    waitForJobToBePickedUpLoop env ctx poolingInterval queueID ticks w4
                  else .ret (none, some err) w4

/-- Go `waitForJobToBePickedUp(ctx, jenkins, poolingInterval, queueID)`.
`time.NewTicker` panics on a non-positive interval. -/
def waitForJobToBePickedUp (fuel : Nat) (env : Env σ) (ctx : Context) (poolingInterval : Int)
    (queueID : Int) (w : World σ) : Run σ (Option Build × Option GoError) :=
  if poolingInterval ≤ 0 then .panic "non-positive interval for NewTicker".toList w
  else waitForJobToBePickedUpLoop env ctx poolingInterval queueID fuel w

/-! ## `getCurrentBuild`, `startNewBuild`, `execute` -/

/-- Go `getCurrentBuild(ctx, jenkins, jobName, buildID)`. -/
def getCurrentBuild (env : Env σ) (ctx : Context) (jobName : Str) (buildID : Int)
    (w : World σ) : (Option Build × Option GoError) × World σ :=
  match GetJob env ctx jobName [] w with
  | (.error err, w1) => ((none, some (errors.Wrapf err ("Failed to get job ".toList ++ jobName))), w1)
  | (.ok job, w1) =>
    match GetBuild env ctx job buildID w1 with
    | (.error err, w2) =>
      ((none, some (errors.Wrapf err ("failed to get build ".toList ++ fmtInt buildID))), w2)
    | (.ok build, w2) =>
      ((some build, none),
        Fprint .stdout ("Job ".toList ++ jobName ++ " with build id ".toList
          ++ fmtInt (env.buildNumber build w2.st) ++ " is found\n".toList) w2)

/-- The value of `ctx.Err()` once the deadline has passed
(`context.DeadlineExceeded`). -/
def deadlineExceeded : GoError := ⟨0, "context deadline exceeded".toList⟩

/-- The `for` loop of `startNewBuild`; `fuel` bounds the inner loop. -/
def startNewBuildLoop (fuel : Nat) (env : Env σ) (ctx : Context) (jobName jobParameters : Str)
    (poolingInterval : Int) : Nat → World σ → Run σ (Option Build × Option GoError)
  | 0, _ => .outOfFuel
  | rounds + 1, w =>
    if ctx.isDone env w then
      .ret (none, some (errors.Wrapf deadlineExceeded
        "Timeout reached on waiting for job to be picked up".toList)) w
    else
      match GetJob env ctx jobName [] w with
      | (.error err, w1) =>
        .ret (none, some (errors.Wrapf err ("Failed to get job ".toList ++ jobName))) w1
      | (.ok job, w1) =>
        match (if jobParameters ≠ [] then env.parseParams jobParameters else .ok []) with
        | .error err =>
          .ret (none, some (errors.Wrapf err "Failed to parse job parameters".toList)) w1
        | .ok parsedJobParameters =>
          match InvokeSimple env ctx job parsedJobParameters w1 with
          | (.error err, w2) =>
            .ret (none, some (errors.Wrapf err ("Failed to invoke job ".toList ++ jobName))) w2
          | (.ok queueID, w2) =>
            if queueID = 0 then
              startNewBuildLoop fuel env ctx jobName jobParameters poolingInterval rounds
                (Sleep env 1000000000 w2)
            else
              match waitForJobToBePickedUp fuel env ctx poolingInterval queueID
                  (Fprint .stdout ("Job ".toList ++ jobName ++ " is queued with id ".toList
                    ++ fmtInt queueID ++ ", waiting for working to pick it up\n".toList) w2) with
              | .outOfFuel => .outOfFuel
              | .panic r w3 => .panic r w3
              | .ret (_, some err) w3 =>
                .ret (none, some (errors.Wrapf err
                  "Failed to wait for job to be picked up".toList)) w3
              | .ret (none, none) w3 => .panic "nil pointer dereference".toList w3
              | .ret (some build, none) w3 =>
                .ret (some build, none)
                  (Fprint .stdout ("Job ".toList ++ jobName ++ " is running with build id ".toList
                    ++ fmtInt (env.buildNumber build w3.st) ++ "\n".toList) w3)

/-- Go `startNewBuild(ctx, jenkins, jobName, jobParameters, poolingInterval)`. -/
def startNewBuild (fuel : Nat) (env : Env σ) (ctx : Context) (jobName jobParameters : Str)
    (poolingInterval : Int) (w : World σ) : Run σ (Option Build × Option GoError) :=
  startNewBuildLoop fuel env ctx jobName jobParameters poolingInterval fuel w

/-- Lines 204-217 of `execute`: the build to wait for.  With a build ID the
build is looked up under `ctx`; otherwise it is started under the context
`context.WithTimeout(ctx, waitTimeout)`, which is declared inside the `else`
block and is visible only there. -/
def attach (fuel : Nat) (env : Env σ) (ctx : Context) (jobName jobParameters : Str)
    (buildID waitTimeout poolingInterval : Int) (w : World σ) :
    Run σ (Option Build × Option GoError) :=
  if buildID ≠ 0 then
    match getCurrentBuild env ctx jobName buildID w with
    | (r, w1) => .ret r w1
  else
    startNewBuild fuel env (ctx.WithTimeout env waitTimeout w) jobName jobParameters
      poolingInterval w

/-- Go `execute(ctx, baseURL, user, password, jobName, jobParameters, buildID,
waitTimeout, poolingInterval)`.  The result is the returned `error`. -/
def execute (fuel : Nat) (env : Env σ) (ctx : Context)
    (baseURL user password jobName jobParameters : Str)
    (buildID waitTimeout poolingInterval : Int) (w : World σ) : Run σ (Option GoError) :=
  match Init env ctx baseURL user password w with
  | (some err, w1) =>
    .ret (some (errors.Wrapf err "Failed to initialize jenkins client".toList)) w1
  | (none, w1) =>
    match attach fuel env ctx jobName jobParameters buildID waitTimeout poolingInterval w1 with
    | .outOfFuel => .outOfFuel
    | .panic r w2 => .panic r w2
    | .ret (_, some err) w2 => .ret (some err) w2
    | .ret (none, none) w2 => .panic "nil pointer dereference".toList w2
    | .ret (some build, none) w2 =>
      match waitBuildToComplete fuel env ctx (some .stdout) .stderr poolingInterval build w2 with
      | .outOfFuel => .outOfFuel
      | .panic r w3 => .panic r w3
      | .ret (some err) w3 =>
        .ret (some (errors.Wrapf err "Failed to wait for build to complete".toList)) w3
      | .ret none w3 =>
        match IsGood env ctx build w3 with
        | (true, w4) =>
          .ret none
            (Fprint .stdout ("Job ".toList ++ jobName ++ " successfully completed, URL: ".toList
              ++ env.buildUrl build w4.st ++ "\n".toList) w4)
        | (false, w4) =>
          .ret (some (errors.Errorf ("Job ".toList ++ jobName ++ " failed, URL: ".toList
            ++ env.buildUrl build w4.st))) w4

/-! ## Observing runs -/

/-- The values a run returned, if it returned. -/
def Run.result {α : Type} : Run σ α → Option α
  | .ret a _ => some a
  | _ => none

/-- The trace at the end of a run that returned or panicked. -/
def Run.trace {α : Type} : Run σ α → List Event
  | .ret _ w => w.trace
  | .panic _ w => w.trace
  | .outOfFuel => []

/-- Whether the run ended in a run-time panic. -/
def Run.panicked {α : Type} : Run σ α → Bool
  | .panic _ _ => true
  | _ => false

/-- The state in which invocation number `i` (counting from `0`) of the
closure of `repeatNTimes` takes place when every earlier invocation has
failed: each failed invocation is followed by the 100ms sleep. -/
def attemptState {κ : Type} (env : Env σ) (fn : κ → World σ → Option GoError × κ × World σ) :
    Nat → κ × World σ → κ × World σ
  | 0, kw => kw
  | i + 1, kw => attemptState env fn i ((fn kw.1 kw.2).2.1, Sleep env 100000000 (fn kw.1 kw.2).2.2)

/-- The outcome of invocation number `i` when every earlier one has failed. -/
def attemptOutcome {κ : Type} (env : Env σ) (fn : κ → World σ → Option GoError × κ × World σ)
    (i : Nat) (kw : κ × World σ) : Option GoError × κ × World σ :=
  fn (attemptState env fn i kw).1 (attemptState env fn i kw).2

/-! ## A scripted server

A concrete environment on which the program can be run: the answers of
every remote operation are read off a list, in order. -/

/-- The state of the scripted server: the clock and, for every operation,
the answers still to be given. -/
structure Server where
  clock : Int := 0
  inits : List (Option GoError) := []
  jobs : List (Except GoError Job) := []
  builds : List (Except GoError Build) := []
  queueIDs : List (Except GoError Int) := []
  queueItems : List (Except GoError Task) := []
  taskPolls : List (Except GoError Task) := []
  buildPolls : List (Option GoError) := []
  running : List Bool := []
  good : List Bool := []
  console : List (Except GoError ConsoleResponse) := []
  number : Int := 0
  url : Str := []

/-- The error the scripted server answers when a list of answers is used up. -/
def Server.exhausted : GoError := ⟨500, "500 no scripted answer".toList⟩

/-- The next scripted answer of an operation that can fail. -/
def Server.next {α : Type} : List (Except GoError α) → Except GoError α × List (Except GoError α)
  | [] => (.error Server.exhausted, [])
  | r :: rest => (r, rest)

/-- The scripted server as an environment.  A tick of interval `d` and a
sleep of `d` advance the clock by `d`; a remote call takes no time. -/
def Server.env : Env Server where
  now := fun s => s.clock
  tick := fun d s => { s with clock := s.clock + d }
  sleep := fun d s => { s with clock := s.clock + d }
  init := fun _ _ _ _ s => (s.inits.headD none, { s with inits := s.inits.tail })
  getJob := fun _ _ _ s => ((Server.next s.jobs).1, { s with jobs := (Server.next s.jobs).2 })
  getBuild := fun _ _ _ s => ((Server.next s.builds).1, { s with builds := (Server.next s.builds).2 })
  invokeSimple := fun _ _ _ s =>
    ((Server.next s.queueIDs).1, { s with queueIDs := (Server.next s.queueIDs).2 })
  getQueueItem := fun _ _ s =>
    ((Server.next s.queueItems).1, { s with queueItems := (Server.next s.queueItems).2 })
  taskPoll := fun _ task s =>
    match s.taskPolls with
    | [] => (.ok task, s)
    | r :: rest => (r, { s with taskPolls := rest })
  buildPoll := fun _ _ s => (s.buildPolls.headD none, { s with buildPolls := s.buildPolls.tail })
  isRunning := fun _ _ s => (s.running.headD false, { s with running := s.running.tail })
  isGood := fun _ _ s => (s.good.headD false, { s with good := s.good.tail })
  getConsoleOutputFromIndex := fun _ _ _ s =>
    ((Server.next s.console).1, { s with console := (Server.next s.console).2 })
  buildNumber := fun _ s => s.number
  buildUrl := fun _ s => s.url
  parseParams := fun _ => .ok []

/-- A closure for `repeatNTimes` that replays a list of outcomes, one per
invocation, and reports each invocation on the error stream. -/
def replay : List (Option GoError) → World Server →
    Option GoError × List (Option GoError) × World Server
  | [], w => (none, [], w)
  | r :: rest, w => (r, rest, Fprint .stderr "attempt".toList w)

/-- The text `"/job/" + f1 + "/job/" + f2 + ...` for the folders `f1, f2, ...`. -/
def nestedFolders : List Str → Str
  | [] => []
  | f :: fs => "/job/".toList ++ f ++ nestedFolders fs

/-- A task URL of the form `P + "/job/" + f1 + ... + "/job/" + leaf + "/"`:
the job `leaf` inside the nested folders `f1, f2, ...`. -/
def taskURL (P : Str) (folders : List Str) (leaf : Str) : Str :=
  P ++ nestedFolders folders ++ "/job/".toList ++ leaf ++ "/".toList

/-- The empty world of the scripted server `s`. -/
def Server.start (s : Server) : World Server := ⟨s, []⟩

/-! ## Ticks of queue resolution, as the server answers them -/

/-- A not-found response: the server answered with HTTP status 404, which
the client reports as an error whose text carries the status code. -/
def GoError.isNotFound (e : GoError) : Bool := e.status == 404 && mentions404 e

/-- A tick of `waitForJobToBePickedUp` that starts in world `w0`, at which
the deadline has not elapsed, and that ends in world `w1` either in a
not-found response at one of the four remote steps or in a queue item whose
execution number is still `0`. -/
inductive PendingTick (env : Env σ) (ctx : Context) (d queueID : Int) (w0 : World σ) :
    World σ → Prop
  | queueItemNotFound (err : GoError) (w1 : World σ) :
      ctx.isDone env (nextTick env d w0) = false →
      GetQueueItem env ctx queueID (nextTick env d w0) = (.error err, w1) →
      err.isNotFound = true → PendingTick env ctx d queueID w0 w1
  | pollNotFound (task : Task) (err : GoError) (w1 w2 : World σ) :
      ctx.isDone env (nextTick env d w0) = false →
      GetQueueItem env ctx queueID (nextTick env d w0) = (.ok task, w1) →
      TaskPoll env ctx task w1 = (.error err, w2) →
      err.isNotFound = true → PendingTick env ctx d queueID w0 w2
  | notAssigned (task task2 : Task) (w1 w2 : World σ) :
      ctx.isDone env (nextTick env d w0) = false →
      GetQueueItem env ctx queueID (nextTick env d w0) = (.ok task, w1) →
      TaskPoll env ctx task w1 = (.ok task2, w2) →
      task2.number = 0 → PendingTick env ctx d queueID w0 w2
  | jobNotFound (task task2 : Task) (leaf : Str) (parents : List Str) (err : GoError)
      (w1 w2 w3 : World σ) :
      ctx.isDone env (nextTick env d w0) = false →
      GetQueueItem env ctx queueID (nextTick env d w0) = (.ok task, w1) →
      TaskPoll env ctx task w1 = (.ok task2, w2) →
      task2.number ≠ 0 → jobPath task2.url = some (leaf, parents) →
      GetJob env ctx leaf parents w2 = (.error err, w3) →
      err.isNotFound = true → PendingTick env ctx d queueID w0 w3
  | buildNotFound (task task2 : Task) (leaf : Str) (parents : List Str) (job : Job)
      (err : GoError) (w1 w2 w3 w4 : World σ) :
      ctx.isDone env (nextTick env d w0) = false →
      GetQueueItem env ctx queueID (nextTick env d w0) = (.ok task, w1) →
      TaskPoll env ctx task w1 = (.ok task2, w2) →
      task2.number ≠ 0 → jobPath task2.url = some (leaf, parents) →
      GetJob env ctx leaf parents w2 = (.ok job, w3) →
      GetBuild env ctx job task2.number w3 = (.error err, w4) →
      err.isNotFound = true → PendingTick env ctx d queueID w0 w4

/-- A tick of `waitForJobToBePickedUp` that starts in world `w0`, at which
the deadline has not elapsed, the queue item has a non-zero execution
number, and the job lookup and the build lookup both succeed; the build
lookup answers `build` and leaves the world `w4`. -/
inductive ResolvingTick (env : Env σ) (ctx : Context) (d queueID : Int) (w0 : World σ)
    (build : Build) : World σ → Prop
  | resolved (task task2 : Task) (leaf : Str) (parents : List Str) (job : Job)
      (w1 w2 w3 w4 : World σ) :
      ctx.isDone env (nextTick env d w0) = false →
      GetQueueItem env ctx queueID (nextTick env d w0) = (.ok task, w1) →
      TaskPoll env ctx task w1 = (.ok task2, w2) →
      task2.number ≠ 0 → jobPath task2.url = some (leaf, parents) →
      GetJob env ctx leaf parents w2 = (.ok job, w3) →
      GetBuild env ctx job task2.number w3 = (.ok build, w4) →
      ResolvingTick env ctx d queueID w0 build w4

/-! ## Scripted scenarios -/

/-- The task URL of the job `myjob` in the folder `folder`. -/
def myjobURL : Str := "https://jenkins.example.org/job/folder/job/myjob/".toList

/-- The error of a 404 answer, as the client reports it. -/
def notFound404 : GoError := ⟨404, "404".toList⟩

/-- A server on which queue item 42 is not found on the first tick, has no
execution number on the second, and is execution 7 of `folder/myjob` on
the third; the job and the build are then found. -/
def pickupServer : Server :=
  { queueItems := [.error notFound404, .ok ⟨0, []⟩, .ok ⟨7, myjobURL⟩],
    jobs := [.ok ⟨1⟩], builds := [.ok ⟨9⟩] }

/-- The worlds after 0, 1 and 2 ticks of queue resolution for queue item 42
on `pickupServer`, polled every 10ns. -/
def pickupWorlds : Nat → World Server
  | 0 => Server.start pickupServer
  | 1 => (GetQueueItem Server.env .background 42
      (nextTick Server.env 10 (Server.start pickupServer))).2
  | _ + 2 => (TaskPoll Server.env .background ⟨0, []⟩
      (GetQueueItem Server.env .background 42 (nextTick Server.env 10
        (GetQueueItem Server.env .background 42
          (nextTick Server.env 10 (Server.start pickupServer))).2)).2).2

/-- A transport failure, not a server response: the connection to port 4040
is refused. -/
def refused4040 : GoError :=
  ⟨0, "dial tcp 10.0.0.1:4040: connect: connection refused".toList⟩

/-- A server that cannot be reached on the first tick and on which queue
item 42 is execution 7 of `folder/myjob` on the second. -/
def refusedServer : Server :=
  { queueItems := [.error refused4040, .ok ⟨7, myjobURL⟩],
    jobs := [.ok ⟨1⟩], builds := [.ok ⟨9⟩] }

/-- The error of a 500 answer. -/
def internal500 : GoError := ⟨500, "500 Internal Server Error".toList⟩

/-- A server that answers the queue item lookup with a 500. -/
def brokenServer : Server := { queueItems := [.error internal500] }

/-- A server on which the queue item is never found. -/
def absentServer : Server :=
  { queueItems := [.error notFound404, .error notFound404, .error notFound404] }

/-- A server on which queue item 42 is execution 7 of a task without URL. -/
def noURLServer : Server := { queueItems := [.ok ⟨7, []⟩] }

/-- A server on which queue item 42 is execution 7 of `folder/myjob` at
once, and the job and the build are found. -/
def directServer : Server :=
  { queueItems := [.ok ⟨7, myjobURL⟩], jobs := [.ok ⟨1⟩], builds := [.ok ⟨9⟩] }

/-! ## Console cursors in a trace -/

/-- The start offsets of the console fetches in a trace, in order. -/
def consoleStarts : List Event → List Int
  | [] => []
  | .call (.consoleOutput _ start) :: es => start :: consoleStarts es
  | _ :: es => consoleStarts es

/-- The console fetches among the events `evs` start at non-decreasing
offsets, all between `lo` and `hi`. -/
def CursorsWithin (lo hi : Int) (evs : List Event) : Prop :=
  lo ≤ hi ∧ (consoleStarts evs).Pairwise (· ≤ ·) ∧ ∀ x ∈ consoleStarts evs, lo ≤ x ∧ x ≤ hi

/-- A server never answers a console fetch with an offset below the offset
that was requested. -/
def ConsoleAdvances (env : Env σ) : Prop :=
  ∀ (ctx : Context) (build : Build) (start : Int) (s s1 : σ) (resp : ConsoleResponse),
    env.getConsoleOutputFromIndex ctx build start s = (.ok resp, s1) → start ≤ resp.Offset

/-- The scripted server with a progressive console: the scripted answers
give the new text, and the offset answered is the requested start advanced
by the length of that text. -/
def Server.progressiveEnv : Env Server :=
  { Server.env with
    getConsoleOutputFromIndex := fun _ _ start s =>
      match Server.next s.console with
      | (.ok resp, rest) =>
        (.ok ⟨resp.Content, start + resp.Content.length, resp.HasMoreText⟩,
          { s with console := rest })
      | (.error e, rest) => (.error e, { s with console := rest }) }

/-- A server whose console answers offset 0 whatever the start. -/
def rewindServer : Server := { console := [.ok ⟨[], 0, false⟩] }

/-- A build that logs `ab` and more at the first tick, then `c`, and has
finished at the second tick. -/
def loggingServer : Server :=
  { console := [.ok ⟨"ab".toList, 0, true⟩, .error internal500, .ok ⟨"c".toList, 0, false⟩,
      .ok ⟨[], 0, false⟩],
    running := [true, false] }

/-- The URL of build 7 of `folder/myjob`. -/
def build7URL : Str := "https://jenkins.example.org/job/folder/job/myjob/7/".toList

/-- A server on which build 7 of the job exists, is still running at the
first status poll and has finished, with success, at the second. -/
def runningServer : Server :=
  { jobs := [.ok ⟨1⟩], builds := [.ok ⟨9⟩], running := [true, false], good := [true],
    console := [.ok ⟨"Started".toList, 7, false⟩, .ok ⟨[], 7, false⟩],
    number := 7, url := build7URL }

/-- A server on which build 7 of the job exists and has finished without
success. -/
def failedServer : Server :=
  { jobs := [.ok ⟨1⟩], builds := [.ok ⟨9⟩], running := [false], good := [false],
    console := [.ok ⟨"Started".toList, 7, false⟩],
    number := 7, url := build7URL }

/-- A server on which a fresh submission gets queue ID 42, is picked up as
build 7 at the first tick, and runs for three status polls before it
finishes with success. -/
def slowServer : Server :=
  { jobs := [.ok ⟨1⟩, .ok ⟨1⟩], queueIDs := [.ok 42], queueItems := [.ok ⟨7, myjobURL⟩],
    builds := [.ok ⟨9⟩], running := [true, true, true, false], good := [true],
    console := [.ok ⟨"Started".toList, 7, false⟩, .ok ⟨[], 7, false⟩, .ok ⟨[], 7, false⟩,
      .ok ⟨[], 7, false⟩],
    number := 7, url := build7URL }

/-- The state of the server and clock at the end of a run. -/
def Run.state? {α : Type} : Run σ α → Option σ
  | .ret _ w => some w.st
  | .panic _ w => some w.st
  | .outOfFuel => none

/-! ## Submissions in a trace -/

/-- The first remote call of a queue resolution started with queue
identifier 0. -/
def zeroQueueLookup : Event := .call (.getQueueItem 0)

/-- The number of `InvokeSimple` calls in a trace. -/
def submissions : List Event → Nat
  | [] => 0
  | .call (.invokeSimple _ _) :: es => submissions es + 1
  | _ :: es => submissions es

/-- A server that merges the first submission into a queued one (queue
identifier 0) and then fails to look the job up. -/
def mergingServer : Server :=
  { jobs := [.ok ⟨1⟩, .error internal500], queueIDs := [.ok 0, .ok 42] }

/-- A server that merges the first submission into a queued one (queue
identifier 0), accepts the second as queue item 42 and runs it as build 7
of `folder/myjob`. -/
def resubmitServer : Server :=
  { jobs := [.ok ⟨1⟩, .ok ⟨1⟩, .ok ⟨1⟩], queueIDs := [.ok 0, .ok 42],
    queueItems := [.ok ⟨7, myjobURL⟩], builds := [.ok ⟨9⟩], number := 7, url := build7URL }

/-! # Properties -/


/-! ## `repeatNTimes` -/

/-- The loop of `repeatNTimes` stops at the first invocation that succeeds
or finds `errCnt` equal to `limit`, and returns what that invocation left. -/
theorem repeatNTimesLoop_stop {κ : Type} (env : Env σ) (limit : Int)
    (fn : κ → World σ → Option GoError × κ × World σ) :
    ∀ (n fuel : Nat) (errCnt : Int) (kw : κ × World σ), n < fuel →
      (∀ i, i < n → (attemptOutcome env fn i kw).1 ≠ none ∧ errCnt + (i : Int) ≠ limit) →
      ((attemptOutcome env fn n kw).1 = none ∨ errCnt + (n : Int) = limit) →
      repeatNTimesLoop env limit fn fuel errCnt kw.1 kw.2
        = .ret ((attemptOutcome env fn n kw).1, (attemptOutcome env fn n kw).2.1)
            (attemptOutcome env fn n kw).2.2 := by
  intro n
  induction n with
  | zero =>
    intro fuel errCnt kw hfuel _ hstop
    obtain ⟨fuel, rfl⟩ : ∃ f, fuel = f + 1 := ⟨fuel - 1, by omega⟩
    simp only [attemptOutcome, attemptState] at hstop ⊢
    rcases hfn : fn kw.1 kw.2 with ⟨r, k1, w1⟩
    rw [hfn] at hstop
    cases r with
    | none => simp [repeatNTimesLoop, hfn]
    | some err =>
      have hlim : errCnt = limit := by simpa using hstop
      simp [repeatNTimesLoop, hfn, hlim]
  | succ n ih =>
    intro fuel errCnt kw hfuel hfail hstop
    obtain ⟨fuel, rfl⟩ : ∃ f, fuel = f + 1 := ⟨fuel - 1, by omega⟩
    have h0 := hfail 0 (by omega)
    simp only [attemptOutcome, attemptState] at h0
    rcases hfn : fn kw.1 kw.2 with ⟨r, k1, w1⟩
    rw [hfn] at h0
    cases r with
    | none => exact absurd rfl h0.1
    | some err =>
      have hne : errCnt ≠ limit := by simpa using h0.2
      have key := ih fuel (errCnt + 1) (k1, Sleep env 100000000 w1) (by omega)
        (by
          intro i hi
          have := hfail (i + 1) (by omega)
          simp only [attemptOutcome, attemptState, hfn] at this ⊢
          refine ⟨this.1, ?_⟩
          have h2 := this.2
          push_cast at h2
          omega)
        (by
          simp only [attemptOutcome, attemptState, hfn] at hstop ⊢
          rcases hstop with h | h
          · exact Or.inl h
          · right
            push_cast at h
            omega)
      simp only [repeatNTimesLoop, hfn, hne, if_false]
      rw [key]
      simp [attemptOutcome, attemptState, hfn]

/-- C7.  For every attempt ceiling `limit >= 0` and every closure: if the
closure fails strictly fewer than `limit` times before it succeeds (`n`
failures, then a success), `repeatNTimes` returns `nil`; and if the closure
fails `limit + 1` times in a row, `repeatNTimes` returns the error of
invocation `limit + 1` as the closure produced it, in the world that this
invocation left: nothing is invoked after it. -/
theorem repeatNTimes_bounded_retry {κ : Type} (env : Env σ) (limit : Int) (hlimit : 0 ≤ limit)
    (fn : κ → World σ → Option GoError × κ × World σ) (k : κ) (w : World σ) :
    (∀ n : Nat, (n : Int) < limit →
      (∀ i, i < n → (attemptOutcome env fn i (k, w)).1 ≠ none) →
      (attemptOutcome env fn n (k, w)).1 = none →
      repeatNTimes env limit fn k w
        = .ret (none, (attemptOutcome env fn n (k, w)).2.1) (attemptOutcome env fn n (k, w)).2.2)
    ∧ ((∀ i : Nat, (i : Int) ≤ limit → (attemptOutcome env fn i (k, w)).1 ≠ none) →
      (attemptOutcome env fn limit.toNat (k, w)).1 ≠ none ∧
      repeatNTimes env limit fn k w
        = .ret ((attemptOutcome env fn limit.toNat (k, w)).1,
              (attemptOutcome env fn limit.toNat (k, w)).2.1)
            (attemptOutcome env fn limit.toNat (k, w)).2.2) := by
  constructor
  · intro n hn hfail hok
    have := repeatNTimesLoop_stop env limit fn n (limit.toNat + 1) 0 (k, w) (by omega)
      (fun i hi => ⟨hfail i hi, by omega⟩) (Or.inl hok)
    rw [hok] at this
    exact this
  · intro hfail
    refine ⟨hfail limit.toNat (by omega), ?_⟩
    exact repeatNTimesLoop_stop env limit fn limit.toNat (limit.toNat + 1) 0 (k, w) (by omega)
      (fun i hi => ⟨hfail i (by omega), by omega⟩) (Or.inr (by omega))


/-- Witness of C7 on the scripted closure: one failure below the ceiling `2`
gives success, three failures in a row give the third error and leave the
fourth outcome unread. -/
theorem repeatNTimes_bounded_retry_witness :
    (repeatNTimes Server.env 2 replay [some ⟨500, "a".toList⟩, none]
        (Server.start {})).result = some (none, [])
    ∧ (repeatNTimes Server.env 2 replay
        [some ⟨500, "a".toList⟩, some ⟨500, "b".toList⟩, some ⟨500, "c".toList⟩, none]
        (Server.start {})).result = some (some ⟨500, "c".toList⟩, [none]) := by
  constructor
  · rw [(repeatNTimes_bounded_retry Server.env 2 (by decide) replay _ _).1 1
      (by decide) (by decide) (by decide)]
    decide
  · rw [((repeatNTimes_bounded_retry Server.env 2 (by decide) replay _ _).2 (by
      intro i hi
      have : i ≤ 2 := by omega
      interval_cases i <;> decide)).2]
    decide

/-! ## Package `strings`: facts used below -/

theorem marker_eq : "/job/".toList = ['/', 'j', 'o', 'b', '/'] := rfl

theorem hasPrefix_append (M t : Str) : strings.HasPrefix (M ++ t) M = true := by
  simp [strings.HasPrefix]

theorem hasPrefix_marker_of_ne (c : Char) (cs : Str) (h : c ≠ '/') :
    strings.HasPrefix (c :: cs) "/job/".toList = false := by
  rw [marker_eq]
  simp [strings.HasPrefix, List.isPrefixOf]
  intro h'
  exact absurd h'.symm h

theorem splitLoop_ne_nil (sep : Str) : ∀ (s : Str) (skip : Nat) (cur : Str),
    strings.splitLoop sep s skip cur ≠ [] := by
  intro s
  induction s with
  | nil => intro skip cur; simp [strings.splitLoop]
  | cons c cs ih =>
    intro skip cur
    cases skip with
    | succ k => simpa [strings.splitLoop] using ih k cur
    | zero =>
      by_cases h : strings.HasPrefix (c :: cs) sep = true
      · simp [strings.splitLoop, h]
      · simpa [strings.splitLoop, h] using ih 0 (cur ++ [c])

/-- `strings.Split` with the separator `"/job/"` never returns an empty slice. -/
theorem Split_marker_ne_nil (s : Str) : strings.Split s "/job/".toList ≠ [] := by
  have : ("/job/".toList).isEmpty = false := by decide
  simp only [strings.Split, this]
  exact splitLoop_ne_nil _ _ _ _

theorem splitLoop_segment (t : Str) : ∀ (s cur : Str), '/' ∉ s →
    strings.splitLoop "/job/".toList (s ++ t) 0 cur
      = strings.splitLoop "/job/".toList t 0 (cur ++ s) := by
  intro s
  induction s with
  | nil => intro cur _; simp
  | cons c cs ih =>
    intro cur h
    have hc : c ≠ '/' := fun e => h (by simp [e])
    have hcs : '/' ∉ cs := fun e => h (by simp [e])
    have := ih (cur ++ [c]) hcs
    simp only [List.cons_append, strings.splitLoop, hasPrefix_marker_of_ne c _ hc]
    simpa using this

theorem splitLoop_marker (t cur : Str) :
    strings.splitLoop "/job/".toList ("/job/".toList ++ t) 0 cur
      = cur :: strings.splitLoop "/job/".toList t 0 [] := by
  have hp := hasPrefix_append "/job/".toList t
  rw [marker_eq] at hp ⊢
  simp only [List.cons_append, List.nil_append] at hp ⊢
  simp [strings.splitLoop, hp]

theorem splitLoop_leaf (leaf cur : Str) (h : '/' ∉ leaf) :
    strings.splitLoop "/job/".toList (leaf ++ "/".toList) 0 cur = [cur ++ leaf ++ "/".toList] := by
  rw [splitLoop_segment _ _ _ h]
  have e : "/".toList = ['/'] := rfl
  rw [e]
  simp [strings.splitLoop, strings.HasPrefix, List.isPrefixOf]

/-- Splitting `f1 + "/job/" + f2 + ... + "/job/" + leaf + "/"` at `"/job/"`. -/
theorem splitLoop_nested (leaf : Str) (hl : '/' ∉ leaf) : ∀ (folders : List Str) (cur : Str),
    (∀ f ∈ folders, '/' ∉ f) →
    strings.splitLoop "/job/".toList
        (nestedFolders folders ++ "/job/".toList ++ leaf ++ "/".toList) 0 cur
      = cur :: (folders ++ [leaf ++ "/".toList]) := by
  intro folders
  induction folders with
  | nil =>
    intro cur _
    have := splitLoop_marker (leaf ++ "/".toList) cur
    simp only [nestedFolders, List.nil_append, List.append_assoc] at this ⊢
    rw [this, splitLoop_leaf _ _ hl]
    simp
  | cons f fs ih =>
    intro cur hf
    have hf1 : '/' ∉ f := hf f (by simp)
    have hfs : ∀ g ∈ fs, '/' ∉ g := fun g hg => hf g (by simp [hg])
    have e : nestedFolders (f :: fs) ++ "/job/".toList ++ leaf ++ "/".toList
        = "/job/".toList ++ (f ++ (nestedFolders fs ++ "/job/".toList ++ leaf ++ "/".toList)) := by
      simp [nestedFolders, List.append_assoc]
    rw [e, splitLoop_marker, splitLoop_segment _ _ _ hf1, ih _ hfs]
    simp

theorem indexFrom_nonneg_of_occurs (sep R : Str) : ∀ (Q : Str) (i : Nat),
    0 ≤ strings.indexFrom sep (Q ++ sep ++ R) i := by
  intro Q
  induction Q with
  | nil =>
    intro i
    cases hs : sep ++ R with
    | nil =>
      obtain ⟨h1, h2⟩ := List.append_eq_nil.mp hs
      subst h1 h2
      simp [strings.indexFrom]
    | cons c cs =>
      have hp : strings.HasPrefix (c :: cs) sep = true := by
        rw [← hs]; exact hasPrefix_append sep R
      simp only [List.nil_append, hs, strings.indexFrom, hp, if_true]
      omega
  | cons c cs ih =>
    intro i
    simp only [List.cons_append, strings.indexFrom]
    split
    · omega
    · simpa [List.append_assoc] using ih (i + 1)

/-- A string in which `strings.Contains` finds no `sep` has no occurrence of `sep`. -/
theorem not_occurs_of_not_Contains (sep P : Str) (h : strings.Contains P sep = false) :
    ∀ Q R, P ≠ Q ++ sep ++ R := by
  intro Q R e
  have := indexFrom_nonneg_of_occurs sep R Q 0
  rw [← e] at this
  simp [strings.Contains, strings.Index] at h
  omega

theorem no_early_match (c : Char) (P t : Str)
    (h1 : ∀ Q R, c :: P ≠ Q ++ "/job/".toList ++ R) (h2 : ¬ "/job".toList <:+ c :: P) :
    strings.HasPrefix (c :: (P ++ "/job/".toList ++ t)) "/job/".toList = false := by
  by_contra hne
  have h : strings.HasPrefix (c :: (P ++ "/job/".toList ++ t)) "/job/".toList = true := by
    simpa using hne
  have e4 : "/job".toList = ['/', 'j', 'o', 'b'] := rfl
  rw [marker_eq] at h h1
  rw [e4] at h2
  rcases P with _ | ⟨d, _ | ⟨e, _ | ⟨f, _ | ⟨g, rest⟩⟩⟩⟩
  · simp [strings.HasPrefix, List.isPrefixOf] at h
  · simp [strings.HasPrefix, List.isPrefixOf] at h
  · simp [strings.HasPrefix, List.isPrefixOf] at h
  · simp [strings.HasPrefix, List.isPrefixOf] at h
    obtain ⟨rfl, rfl, rfl, rfl⟩ := h
    exact h2 (List.suffix_refl _)
  · simp [strings.HasPrefix, List.isPrefixOf] at h
    obtain ⟨rfl, rfl, rfl, rfl, rfl, -⟩ := h
    exact h1 [] rest (by simp)

/-- In `P + "/job/" + t`, where `P` has no `"/job/"` and does not end in
`"/job"`, the first `"/job/"` is the one that follows `P`. -/
theorem indexFrom_after_prefix (t : Str) : ∀ (P : Str) (i : Nat),
    (∀ Q R, P ≠ Q ++ "/job/".toList ++ R) → ¬ "/job".toList <:+ P →
    strings.indexFrom "/job/".toList (P ++ "/job/".toList ++ t) i = ((i + P.length : Nat) : Int) := by
  intro P
  induction P with
  | nil =>
    intro i _ _
    have hp := hasPrefix_append "/job/".toList t
    rw [marker_eq] at hp ⊢
    simp only [List.cons_append, List.nil_append] at hp ⊢
    simp [strings.indexFrom, hp]
  | cons c cs ih =>
    intro i h1 h2
    have hno := no_early_match c cs t h1 h2
    have h1' : ∀ Q R, cs ≠ Q ++ "/job/".toList ++ R := by
      intro Q R e
      exact h1 (c :: Q) R (by simp [e])
    have h2' : ¬ "/job".toList <:+ cs := fun hs => h2 (hs.trans (List.suffix_cons c cs))
    have := ih (i + 1) h1' h2'
    simp only [List.cons_append, List.append_assoc] at hno this ⊢
    simp only [strings.indexFrom, hno]
    rw [this]
    simp only [List.length_cons]
    push_cast
    omega

/-- The job path extracted from a task URL
`P + "/job/" + f1 + ... + "/job/" + fn + "/job/" + leaf + "/"`, where `P`
contains no `"/job/"` and does not end in `"/job"` and neither the folders
nor the leaf contain `"/"`: the parent folders are `[f1, ..., fn]` and the
leaf name is `leaf + "/"`, the final segment with its trailing slash. -/
theorem jobPath_taskURL (P : Str) (folders : List Str) (leaf : Str)
    (hP : strings.Contains P "/job/".toList = false) (hP2 : ¬ "/job".toList <:+ P)
    (hf : ∀ f ∈ folders, '/' ∉ f) (hl : '/' ∉ leaf) :
    jobPath (taskURL P folders leaf) = some (leaf ++ "/".toList, folders) := by
  obtain ⟨t, ht⟩ : ∃ t, nestedFolders folders ++ "/job/".toList ++ leaf ++ "/".toList
      = "/job/".toList ++ t := by
    cases folders with
    | nil => exact ⟨leaf ++ "/".toList, by simp [nestedFolders]⟩
    | cons f fs =>
      exact ⟨f ++ (nestedFolders fs ++ "/job/".toList ++ leaf ++ "/".toList),
        by simp [nestedFolders, List.append_assoc]⟩
  have hsplit : strings.splitLoop "/job/".toList t 0 [] = folders ++ [leaf ++ "/".toList] := by
    have h1 := splitLoop_nested leaf hl folders [] hf
    rw [ht, splitLoop_marker] at h1
    exact List.tail_eq_of_cons_eq h1
  have hurl : taskURL P folders leaf = (P ++ "/job/".toList) ++ t := by
    have : taskURL P folders leaf
        = P ++ (nestedFolders folders ++ "/job/".toList ++ leaf ++ "/".toList) := by
      simp [taskURL, List.append_assoc]
    rw [this, ht, List.append_assoc]
  have hidx : strings.Index ((P ++ "/job/".toList) ++ t) "/job/".toList = (P.length : Int) := by
    have := indexFrom_after_prefix t P 0 (not_occurs_of_not_Contains _ _ hP) hP2
    simpa [strings.Index] using this
  have hlen : ("/job/".toList.length : Int) = 5 := by decide
  have hslice : strings.sliceFrom ((P ++ "/job/".toList) ++ t) ((P.length : Int) + 5) = some t := by
    have hl5 : (P ++ "/job/".toList).length = P.length + 5 := by
      simp [List.length_append, marker_eq]
    have hd : List.drop (P.length + 5) ((P ++ "/job/".toList) ++ t) = t := by
      rw [← hl5]; exact List.drop_left _ _
    have hn : ((P.length : Int) + 5).toNat = P.length + 5 := by omega
    have hb : 0 ≤ (P.length : Int) + 5
        ∧ (P.length : Int) + 5 ≤ (((P ++ "/job/".toList) ++ t).length : Int) := by
      constructor
      · omega
      · rw [List.length_append, hl5]; push_cast; omega
    simp only [strings.sliceFrom, hb, and_self, if_true, hn, hd]
  have hne : ("/job/".toList).isEmpty = false := by decide
  have hget : (folders ++ [leaf ++ "/".toList])[(folders ++ [leaf ++ "/".toList]).length - 1]?
      = some (leaf ++ "/".toList) := by
    simp
  have htake : (folders ++ [leaf ++ "/".toList]).take ((folders ++ [leaf ++ "/".toList]).length - 1)
      = folders := by
    simp
  simp only [jobPath, hurl, hidx, hlen, hslice, strings.Split, hne, hsplit, hget, htake]
  simp

/-! ## Traces only grow -/

theorem remote_trace {α : Type} (c : Call) (op : σ → α × σ) (w w1 : World σ) (a : α)
    (h : remote c op w = (a, w1)) : w1.trace = w.trace ++ [.call c] := by
  simp only [remote, World.record, Prod.mk.injEq] at h
  rw [← h.2]

theorem remote_st {α : Type} (c : Call) (op : σ → α × σ) (w w1 : World σ) (a : α)
    (h : remote c op w = (a, w1)) : op w.st = (a, w1.st) := by
  simp only [remote, World.record, Prod.mk.injEq] at h
  rw [← h.2, ← h.1]

@[simp] theorem nextTick_trace (env : Env σ) (d : Int) (w : World σ) :
    (nextTick env d w).trace = w.trace ++ [.tick d] := rfl

@[simp] theorem Sleep_trace (env : Env σ) (d : Int) (w : World σ) :
    (Sleep env d w).trace = w.trace ++ [.sleep d] := rfl

@[simp] theorem Fprint_trace (out : Writer) (text : Str) (w : World σ) :
    (Fprint out text w).trace = w.trace ++ [.write out text] := rfl

@[simp] theorem Fprintln_trace (out : Writer) (text : Str) (w : World σ) :
    (Fprintln out text w).trace = w.trace ++ [.write out (text ++ "\n".toList)] := rfl

/-- Whatever `waitForJobToBePickedUp` does is appended to the trace. -/
theorem waitForJobToBePickedUpLoop_trace (env : Env σ) (ctx : Context) (poolingInterval : Int)
    (queueID : Int) : ∀ (ticks : Nat) (w : World σ) (r : Run σ (Option Build × Option GoError)),
    waitForJobToBePickedUpLoop env ctx poolingInterval queueID ticks w = r → r ≠ .outOfFuel →
    w.trace <+: r.trace := by
  intro ticks
  induction ticks with
  | zero => intro w r hr h; simp [waitForJobToBePickedUpLoop] at hr; exact absurd hr.symm h
  | succ n ih =>
    intro w r hr h
    have hstep : ∀ w' : World σ, w.trace <+: w'.trace →
        waitForJobToBePickedUpLoop env ctx poolingInterval queueID n w' = r →
        w.trace <+: r.trace :=
      fun w' hw hr' => hw.trans (ih w' r hr' h)
    unfold waitForJobToBePickedUpLoop at hr
    simp only at hr
    split at hr
    · subst hr; simp [Run.trace]
    · split at hr
      · rename_i err w1 h1
        have t1 := remote_trace _ _ _ _ _ h1
        split at hr
        · exact hstep _ (by simp [t1]) hr
        · subst hr; simp [Run.trace, t1]
      · rename_i task w1 h1
        have t1 := remote_trace _ _ _ _ _ h1
        split at hr
        · rename_i err w2 h2
          have t2 := remote_trace _ _ _ _ _ h2
          split at hr
          · exact hstep _ (by simp [t1, t2]) hr
          · subst hr; simp [Run.trace, t1, t2]
        · rename_i task2 w2 h2
          have t2 := remote_trace _ _ _ _ _ h2
          split at hr
          · exact hstep _ (by simp [t1, t2]) hr
          · split at hr
            · subst hr; simp [Run.trace, t1, t2]
            · rename_i leaf parents hp
              split at hr
              · rename_i err w3 h3
                have t3 := remote_trace _ _ _ _ _ h3
                split at hr
                · exact hstep _ (by simp [t1, t2, t3]) hr
                · subst hr; simp [Run.trace, t1, t2, t3]
              · rename_i job w3 h3
                have t3 := remote_trace _ _ _ _ _ h3
                split at hr
                · rename_i build w4 h4
                  have t4 := remote_trace _ _ _ _ _ h4
                  subst hr; simp [Run.trace, t1, t2, t3, t4]
                · rename_i err w4 h4
                  have t4 := remote_trace _ _ _ _ _ h4
                  split at hr
                  · exact hstep _ (by simp [t1, t2, t3, t4]) hr
                  · subst hr; simp [Run.trace, t1, t2, t3, t4]

/-! ## `waitForJobToBePickedUp`, tick by tick -/

/-- The error `waitForJobToBePickedUp` returns when it finds the context done. -/
theorem pickUp_tick_timeout (env : Env σ) (ctx : Context) (d queueID : Int) (n : Nat)
    (w0 : World σ) (hd : ctx.isDone env (nextTick env d w0) = true) :
    waitForJobToBePickedUpLoop env ctx d queueID (n + 1) w0
      = .ret (none, some (errors.Errorf "reached timeout on waiting for build results".toList))
          (nextTick env d w0) := by
  simp [waitForJobToBePickedUpLoop, hd]

theorem pickUp_tick_queueItem_error (env : Env σ) (ctx : Context) (d queueID : Int) (n : Nat)
    (w0 w1 : World σ) (err : GoError) (hd : ctx.isDone env (nextTick env d w0) = false)
    (h1 : GetQueueItem env ctx queueID (nextTick env d w0) = (.error err, w1)) :
    waitForJobToBePickedUpLoop env ctx d queueID (n + 1) w0
      = if mentions404 err then waitForJobToBePickedUpLoop env ctx d queueID n w1
        else .ret (none, some err) w1 := by
  simp only [waitForJobToBePickedUpLoop, hd, h1]
  simp

theorem pickUp_tick_poll_error (env : Env σ) (ctx : Context) (d queueID : Int) (n : Nat)
    (w0 w1 w2 : World σ) (task : Task) (err : GoError)
    (hd : ctx.isDone env (nextTick env d w0) = false)
    (h1 : GetQueueItem env ctx queueID (nextTick env d w0) = (.ok task, w1))
    (h2 : TaskPoll env ctx task w1 = (.error err, w2)) :
    waitForJobToBePickedUpLoop env ctx d queueID (n + 1) w0
      = if mentions404 err then waitForJobToBePickedUpLoop env ctx d queueID n w2
        else .ret (none, some err) w2 := by
  simp only [waitForJobToBePickedUpLoop, hd, h1, h2]
  simp

theorem pickUp_tick_not_assigned (env : Env σ) (ctx : Context) (d queueID : Int) (n : Nat)
    (w0 w1 w2 : World σ) (task task2 : Task)
    (hd : ctx.isDone env (nextTick env d w0) = false)
    (h1 : GetQueueItem env ctx queueID (nextTick env d w0) = (.ok task, w1))
    (h2 : TaskPoll env ctx task w1 = (.ok task2, w2)) (h0 : task2.number = 0) :
    waitForJobToBePickedUpLoop env ctx d queueID (n + 1) w0
      = waitForJobToBePickedUpLoop env ctx d queueID n w2 := by
  simp only [waitForJobToBePickedUpLoop, hd, h1, h2, h0]
  simp

theorem pickUp_tick_lookup (env : Env σ) (ctx : Context) (d queueID : Int) (n : Nat)
    (w0 w1 w2 : World σ) (task task2 : Task) (leaf : Str) (parents : List Str)
    (hd : ctx.isDone env (nextTick env d w0) = false)
    (h1 : GetQueueItem env ctx queueID (nextTick env d w0) = (.ok task, w1))
    (h2 : TaskPoll env ctx task w1 = (.ok task2, w2)) (hn : task2.number ≠ 0)
    (hp : jobPath task2.url = some (leaf, parents)) :
    waitForJobToBePickedUpLoop env ctx d queueID (n + 1) w0
      = match GetJob env ctx leaf parents w2 with
        | (.error err, w3) =>
          if mentions404 err then waitForJobToBePickedUpLoop env ctx d queueID n w3
          else .ret (none, some err) w3
        | (.ok job, w3) =>
          match GetBuild env ctx job task2.number w3 with
          | (.ok build, w4) => .ret (some build, none) w4
          | (.error err, w4) =>
            if mentions404 err then waitForJobToBePickedUpLoop env ctx d queueID n w4
            else .ret (none, some err) w4 := by
  simp only [waitForJobToBePickedUpLoop, hd, h1, h2, hn, hp]
  simp

theorem pickUp_tick_getJob_error (env : Env σ) (ctx : Context) (d queueID : Int) (n : Nat)
    (w0 w1 w2 w3 : World σ) (task task2 : Task) (leaf : Str) (parents : List Str) (err : GoError)
    (hd : ctx.isDone env (nextTick env d w0) = false)
    (h1 : GetQueueItem env ctx queueID (nextTick env d w0) = (.ok task, w1))
    (h2 : TaskPoll env ctx task w1 = (.ok task2, w2)) (hn : task2.number ≠ 0)
    (hp : jobPath task2.url = some (leaf, parents))
    (h3 : GetJob env ctx leaf parents w2 = (.error err, w3)) :
    waitForJobToBePickedUpLoop env ctx d queueID (n + 1) w0
      = if mentions404 err then waitForJobToBePickedUpLoop env ctx d queueID n w3
        else .ret (none, some err) w3 := by
  rw [pickUp_tick_lookup env ctx d queueID n w0 w1 w2 task task2 leaf parents hd h1 h2 hn hp, h3]

theorem pickUp_tick_getBuild_error (env : Env σ) (ctx : Context) (d queueID : Int) (n : Nat)
    (w0 w1 w2 w3 w4 : World σ) (task task2 : Task) (leaf : Str) (parents : List Str) (job : Job)
    (err : GoError)
    (hd : ctx.isDone env (nextTick env d w0) = false)
    (h1 : GetQueueItem env ctx queueID (nextTick env d w0) = (.ok task, w1))
    (h2 : TaskPoll env ctx task w1 = (.ok task2, w2)) (hn : task2.number ≠ 0)
    (hp : jobPath task2.url = some (leaf, parents))
    (h3 : GetJob env ctx leaf parents w2 = (.ok job, w3))
    (h4 : GetBuild env ctx job task2.number w3 = (.error err, w4)) :
    waitForJobToBePickedUpLoop env ctx d queueID (n + 1) w0
      = if mentions404 err then waitForJobToBePickedUpLoop env ctx d queueID n w4
        else .ret (none, some err) w4 := by
  rw [pickUp_tick_lookup env ctx d queueID n w0 w1 w2 task task2 leaf parents hd h1 h2 hn hp, h3]
  simp only [h4]

theorem pickUp_tick_resolved (env : Env σ) (ctx : Context) (d queueID : Int) (n : Nat)
    (w0 w1 w2 w3 w4 : World σ) (task task2 : Task) (leaf : Str) (parents : List Str) (job : Job)
    (build : Build)
    (hd : ctx.isDone env (nextTick env d w0) = false)
    (h1 : GetQueueItem env ctx queueID (nextTick env d w0) = (.ok task, w1))
    (h2 : TaskPoll env ctx task w1 = (.ok task2, w2)) (hn : task2.number ≠ 0)
    (hp : jobPath task2.url = some (leaf, parents))
    (h3 : GetJob env ctx leaf parents w2 = (.ok job, w3))
    (h4 : GetBuild env ctx job task2.number w3 = (.ok build, w4)) :
    waitForJobToBePickedUpLoop env ctx d queueID (n + 1) w0 = .ret (some build, none) w4 := by
  rw [pickUp_tick_lookup env ctx d queueID n w0 w1 w2 task task2 leaf parents hd h1 h2 hn hp, h3]
  simp only [h4]

theorem isNotFound_mentions404 (e : GoError) (h : e.isNotFound = true) : mentions404 e = true := by
  simp [GoError.isNotFound] at h
  exact h.2

/-- A pending tick hands over to the next tick. -/
theorem pickUp_pending_tick (env : Env σ) (ctx : Context) (d queueID : Int) (n : Nat)
    (w0 w1 : World σ) (h : PendingTick env ctx d queueID w0 w1) :
    waitForJobToBePickedUpLoop env ctx d queueID (n + 1) w0
      = waitForJobToBePickedUpLoop env ctx d queueID n w1 := by
  cases h with
  | queueItemNotFound err w1 hd h1 hnf =>
    rw [pickUp_tick_queueItem_error env ctx d queueID n w0 _ err hd h1,
      isNotFound_mentions404 err hnf]
    simp
  | pollNotFound task err w1 w2 hd h1 h2 hnf =>
    rw [pickUp_tick_poll_error env ctx d queueID n w0 w1 _ task err hd h1 h2,
      isNotFound_mentions404 err hnf]
    simp
  | notAssigned task task2 w1 w2 hd h1 h2 h0 =>
    exact pickUp_tick_not_assigned env ctx d queueID n w0 w1 _ task task2 hd h1 h2 h0
  | jobNotFound task task2 leaf parents err w1 w2 w3 hd h1 h2 hn hp h3 hnf =>
    rw [pickUp_tick_getJob_error env ctx d queueID n w0 w1 w2 _ task task2 leaf parents err
      hd h1 h2 hn hp h3, isNotFound_mentions404 err hnf]
    simp
  | buildNotFound task task2 leaf parents job err w1 w2 w3 w4 hd h1 h2 hn hp h3 h4 hnf =>
    rw [pickUp_tick_getBuild_error env ctx d queueID n w0 w1 w2 w3 _ task task2 leaf parents job
      err hd h1 h2 hn hp h3 h4, isNotFound_mentions404 err hnf]
    simp

theorem pickUp_pending_ticks (env : Env σ) (ctx : Context) (d queueID : Int)
    (ws : Nat → World σ) : ∀ (n m : Nat),
    (∀ i, i < n → PendingTick env ctx d queueID (ws i) (ws (i + 1))) →
    waitForJobToBePickedUpLoop env ctx d queueID (n + m) (ws 0)
      = waitForJobToBePickedUpLoop env ctx d queueID m (ws n) := by
  intro n
  induction n with
  | zero => intro m _; simp
  | succ n ih =>
    intro m h
    have e : n + 1 + m = n + (m + 1) := by omega
    rw [e, ih (m + 1) (fun i hi => h i (by omega))]
    exact pickUp_pending_tick env ctx d queueID m _ _ (h n (by omega))

/-- C3.  For every `n`: when the first `n` ticks of `waitForJobToBePickedUp`
are pending ticks (each ends in a not-found response at one of the four
remote steps or in a queue item whose execution number is still `0`, the
deadline not having elapsed), and on tick `n + 1` the deadline has not
elapsed, the queue item has a non-zero execution number and the job lookup
and the build lookup succeed, the function returns the build obtained on
tick `n + 1` with no error.  `ws i` is the world after `i` ticks; the
ticker exists for a positive interval only. -/
theorem waitForJobToBePickedUp_eventually_resolves (env : Env σ) (ctx : Context)
    (d queueID : Int) (hd : 0 < d) (n : Nat) (ws : Nat → World σ) (build : Build)
    (wlast : World σ)
    (hpending : ∀ i, i < n → PendingTick env ctx d queueID (ws i) (ws (i + 1)))
    (hresolve : ResolvingTick env ctx d queueID (ws n) build wlast)
    (fuel : Nat) (hfuel : n < fuel) :
    waitForJobToBePickedUp fuel env ctx d queueID (ws 0) = .ret (some build, none) wlast := by
  obtain ⟨m, rfl⟩ : ∃ m, fuel = n + (m + 1) := ⟨fuel - n - 1, by omega⟩
  have hnd : ¬ d ≤ 0 := by omega
  simp only [waitForJobToBePickedUp, hnd, if_false]
  rw [pickUp_pending_ticks env ctx d queueID ws n (m + 1) hpending]
  cases hresolve with
  | resolved task task2 leaf parents job w1 w2 w3 w4 hdn h1 h2 hn hp h3 h4 =>
    exact pickUp_tick_resolved env ctx d queueID m _ w1 w2 w3 _ task task2 leaf parents job build
      hdn h1 h2 hn hp h3 h4

/-- Witness of C3 on `pickupServer`: two pending ticks, then the build. -/
theorem waitForJobToBePickedUp_eventually_resolves_witness :
    (waitForJobToBePickedUp 3 Server.env .background 10 42 (Server.start pickupServer)).result
      = some (some ⟨9⟩, none) := by
  have hpending : ∀ i, i < 2 →
      PendingTick Server.env .background 10 42 (pickupWorlds i) (pickupWorlds (i + 1)) := by
    intro i hi
    interval_cases i
    · exact PendingTick.queueItemNotFound notFound404 _ rfl rfl (by decide)
    · exact PendingTick.notAssigned ⟨0, []⟩ ⟨0, []⟩ _ _ rfl rfl rfl rfl
  have hresolve : ResolvingTick Server.env .background 10 42 (pickupWorlds 2) ⟨9⟩ _ :=
    ResolvingTick.resolved ⟨7, myjobURL⟩ ⟨7, myjobURL⟩ "myjob/".toList ["folder".toList] ⟨1⟩
      _ _ _ _ rfl rfl rfl (by decide) (by decide) rfl rfl
  exact congrArg Run.result
    (waitForJobToBePickedUp_eventually_resolves Server.env .background 10 42 (by decide) 2
      pickupWorlds ⟨9⟩ _ hpending hresolve 3 (by decide))

/-- C2 (amended).  At every tick of `waitForJobToBePickedUp` (the loop taken
up in any world `w0`, the deadline not having elapsed) and for each of the
four remote steps: if the step fails with an error whose text does not
contain `"404"`, the function returns that error with no build, in the
world the failed call left: the step is not retried and no further remote
call is made. -/
theorem waitForJobToBePickedUp_fatal_error (env : Env σ) (ctx : Context) (d queueID : Int)
    (n : Nat) (w0 : World σ) (hd : ctx.isDone env (nextTick env d w0) = false) :
    (∀ err w1, GetQueueItem env ctx queueID (nextTick env d w0) = (.error err, w1) →
      mentions404 err = false →
      waitForJobToBePickedUpLoop env ctx d queueID (n + 1) w0 = .ret (none, some err) w1)
    ∧ (∀ task err w1 w2, GetQueueItem env ctx queueID (nextTick env d w0) = (.ok task, w1) →
      TaskPoll env ctx task w1 = (.error err, w2) → mentions404 err = false →
      waitForJobToBePickedUpLoop env ctx d queueID (n + 1) w0 = .ret (none, some err) w2)
    ∧ (∀ task task2 leaf parents err w1 w2 w3,
      GetQueueItem env ctx queueID (nextTick env d w0) = (.ok task, w1) →
      TaskPoll env ctx task w1 = (.ok task2, w2) → task2.number ≠ 0 →
      jobPath task2.url = some (leaf, parents) →
      GetJob env ctx leaf parents w2 = (.error err, w3) → mentions404 err = false →
      waitForJobToBePickedUpLoop env ctx d queueID (n + 1) w0 = .ret (none, some err) w3)
    ∧ (∀ task task2 leaf parents job err w1 w2 w3 w4,
      GetQueueItem env ctx queueID (nextTick env d w0) = (.ok task, w1) →
      TaskPoll env ctx task w1 = (.ok task2, w2) → task2.number ≠ 0 →
      jobPath task2.url = some (leaf, parents) →
      GetJob env ctx leaf parents w2 = (.ok job, w3) →
      GetBuild env ctx job task2.number w3 = (.error err, w4) → mentions404 err = false →
      waitForJobToBePickedUpLoop env ctx d queueID (n + 1) w0 = .ret (none, some err) w4) := by
  refine ⟨?_, ?_, ?_, ?_⟩
  · intro err w1 h1 h404
    rw [pickUp_tick_queueItem_error env ctx d queueID n w0 w1 err hd h1, h404]
    simp
  · intro task err w1 w2 h1 h2 h404
    rw [pickUp_tick_poll_error env ctx d queueID n w0 w1 w2 task err hd h1 h2, h404]
    simp
  · intro task task2 leaf parents err w1 w2 w3 h1 h2 hn hp h3 h404
    rw [pickUp_tick_getJob_error env ctx d queueID n w0 w1 w2 w3 task task2 leaf parents err
      hd h1 h2 hn hp h3, h404]
    simp
  · intro task task2 leaf parents job err w1 w2 w3 w4 h1 h2 hn hp h3 h4 h404
    rw [pickUp_tick_getBuild_error env ctx d queueID n w0 w1 w2 w3 w4 task task2 leaf parents job
      err hd h1 h2 hn hp h3 h4, h404]
    simp

/-- Witness of C2 (amended) on `brokenServer`: the 500 of the queue item
lookup is returned at once, after one tick and one remote call. -/
theorem waitForJobToBePickedUp_fatal_error_witness :
    (waitForJobToBePickedUpLoop Server.env .background 10 42 3 (Server.start brokenServer)).result
        = some (none, some internal500)
    ∧ (waitForJobToBePickedUpLoop Server.env .background 10 42 3 (Server.start brokenServer)).trace
        = [.tick 10, .call (.getQueueItem 42)] := by
  have h := (waitForJobToBePickedUp_fatal_error Server.env .background 10 42 2
    (Server.start brokenServer) rfl).1 internal500 _ rfl (by decide)
  exact ⟨congrArg Run.result h, congrArg Run.trace h⟩

/-- Counterexample to C2 as stated: on `refusedServer` the queue item lookup
of the first tick fails with a transport error, which is not a not-found
response; its text happens to contain `404` (the port number).  The
function does not return that error: it looks the queue item up again on
the next tick and returns the build. -/
theorem waitForJobToBePickedUp_retries_error_mentioning_404 :
    refused4040.isNotFound = false
    ∧ (GetQueueItem Server.env .background 42
        (nextTick Server.env 10 (Server.start refusedServer))).1 = .error refused4040
    ∧ (waitForJobToBePickedUp 3 Server.env .background 10 42 (Server.start refusedServer)).result
        = some (some ⟨9⟩, none)
    ∧ (waitForJobToBePickedUp 3 Server.env .background 10 42 (Server.start refusedServer)).trace
        = [.tick 10, .call (.getQueueItem 42), .tick 10, .call (.getQueueItem 42),
            .call (.taskPoll ⟨7, myjobURL⟩), .call (.getJob "myjob/".toList ["folder".toList]),
            .call (.getBuild ⟨1⟩ 7)] := by
  refine ⟨by decide, rfl, by decide, by decide⟩

/-- C8, the code at the failing input: on `absentServer` with the deadline
at 15ns and a tick every 10ns, the first tick observes a 404; at the second
tick the deadline has passed and the function returns the error
`reached timeout on waiting for build results`, which carries nothing of
the 404 observed before. -/
theorem waitForJobToBePickedUp_timeout_drops_last_error :
    (waitForJobToBePickedUp 5 Server.env ⟨some 15⟩ 10 42 (Server.start absentServer)).result
        = some (none, some ⟨0, "reached timeout on waiting for build results".toList⟩)
    ∧ (waitForJobToBePickedUp 5 Server.env ⟨some 15⟩ 10 42 (Server.start absentServer)).trace
        = [.tick 10, .call (.getQueueItem 42), .tick 10]
    ∧ strings.Contains "reached timeout on waiting for build results".toList notFound404.text
        = false := by
  refine ⟨by decide, by decide, by decide⟩

theorem indexFrom_range (sep : Str) : ∀ (s : Str) (i : Nat),
    strings.indexFrom sep s i = -1
    ∨ ((i : Int) ≤ strings.indexFrom sep s i
      ∧ strings.indexFrom sep s i + (sep.length : Int) ≤ (i : Int) + (s.length : Int)) := by
  intro s
  induction s with
  | nil =>
    intro i
    by_cases h : sep.isEmpty = true
    · right
      have : sep = [] := by simpa using h
      simp [strings.indexFrom, this]
    · left
      simp [strings.indexFrom, h]
  | cons c cs ih =>
    intro i
    by_cases h : strings.HasPrefix (c :: cs) sep = true
    · right
      have hle : sep.length ≤ (c :: cs).length :=
        (List.isPrefixOf_iff_prefix.mp h).length_le
      simp only [strings.indexFrom, h, if_true]
      omega
    · simp only [strings.indexFrom, h]
      rcases ih (i + 1) with h1 | h1
      · left; simpa using h1
      · right
        simp only [List.length_cons] at h1 ⊢
        simp only [Bool.false_eq_true, if_false]
        push_cast at h1 ⊢
        omega

/-- The job path extraction panics exactly for the task URLs that contain no
`"/job/"` and are shorter than 4 bytes. -/
theorem jobPath_eq_none_iff (url : Str) :
    jobPath url = none ↔ strings.Index url "/job/".toList = -1 ∧ url.length < 4 := by
  have hlen : ("/job/".toList.length : Int) = 5 := by decide
  have hrange := indexFrom_range "/job/".toList url 0
  rw [hlen] at hrange
  have hsome : ∀ rest : Str, (match
      (strings.Split rest "/job/".toList)[(strings.Split rest "/job/".toList).length - 1]? with
      | none => (none : Option (Str × List Str))
      | some leaf => some (leaf, (strings.Split rest "/job/".toList).take
          ((strings.Split rest "/job/".toList).length - 1))) ≠ none := by
    intro rest
    have hne := Split_marker_ne_nil rest
    have hpos : 0 < (strings.Split rest "/job/".toList).length := List.length_pos.mpr hne
    have hlt : (strings.Split rest "/job/".toList).length - 1
        < (strings.Split rest "/job/".toList).length := by omega
    rw [List.getElem?_eq_getElem hlt]
    simp
  simp only [jobPath, hlen, strings.sliceFrom]
  constructor
  · intro h
    by_cases hb : 0 ≤ strings.Index url "/job/".toList + 5
        ∧ strings.Index url "/job/".toList + 5 ≤ (url.length : Int)
    · simp only [hb, and_self, if_true] at h
      exact absurd h (hsome _)
    · simp only [strings.Index] at hb ⊢
      rcases hrange with h1 | h1
      · rw [h1] at hb
        refine ⟨h1, ?_⟩
        omega
      · exfalso
        apply hb
        constructor <;> omega
  · rintro ⟨h1, h2⟩
    have hb : ¬ (0 ≤ strings.Index url "/job/".toList + 5
        ∧ strings.Index url "/job/".toList + 5 ≤ (url.length : Int)) := by
      rw [h1]
      omega
    simp only [hb, if_false]

/-- C10, the code at the failing input: for the empty task URL, and for a
URL of three characters, there is no `"/job/"`, `first` is `-1 + 5 = 4`,
which exceeds the length, and the slice expression panics; the run of
`waitForJobToBePickedUp` that receives a queue item with execution number 7
and an empty task URL ends in that panic. -/
theorem jobPath_panics_on_short_url :
    strings.Index [] "/job/".toList + 5 = 4
    ∧ strings.sliceFrom [] 4 = none
    ∧ jobPath [] = none
    ∧ jobPath "abc".toList = none
    ∧ (waitForJobToBePickedUp 3 Server.env .background 10 42
        (Server.start noURLServer)).panicked = true := by
  refine ⟨by decide, by decide, by decide, by decide, by decide⟩

/-- Counterexample to C5 as stated: for the task URL
`https://jenkins.example.org/job/folder/job/myjob/` the leaf that is looked
up is `myjob/`, not `myjob`; and for the prefix `https://jenkins.example.org/job`,
which contains no `/job/` but ends in `/job`, the first marker found is the
one that straddles the end of the prefix and the leaf is `job/myjob/`. -/
theorem jobPath_keeps_trailing_slash :
    myjobURL = taskURL "https://jenkins.example.org".toList ["folder".toList] "myjob".toList
    ∧ jobPath myjobURL = some ("myjob/".toList, ["folder".toList])
    ∧ jobPath myjobURL ≠ some ("myjob".toList, ["folder".toList])
    ∧ jobPath (taskURL "https://jenkins.example.org/job".toList [] "myjob".toList)
        = some ("job/myjob/".toList, []) := by
  refine ⟨by decide, by decide, by decide, by decide⟩

/-- C5 (amended).  For every task URL
`P + "/job/" + f1 + ... + "/job/" + fn + "/job/" + leaf + "/"`, where `P`
contains no `"/job/"` and does not end in `"/job"` and neither the folders
nor the leaf contain `"/"`, the job path extracted by queue resolution has
the parent folders `[f1, ..., fn]` and the leaf name `leaf + "/"` (the final
segment with its trailing slash); and at a tick whose queue item carries
that URL and a non-zero execution number, the remote call that follows the
poll of the queue item is `GetJob` with that leaf and those parents. -/
theorem queue_resolution_looks_up_job_path (P : Str) (folders : List Str) (leaf : Str)
    (hP : strings.Contains P "/job/".toList = false) (hP2 : ¬ "/job".toList <:+ P)
    (hf : ∀ f ∈ folders, '/' ∉ f) (hl : '/' ∉ leaf)
    (env : Env σ) (ctx : Context) (d queueID : Int) (n : Nat) (w0 w1 w2 : World σ)
    (task task2 : Task)
    (hd : ctx.isDone env (nextTick env d w0) = false)
    (h1 : GetQueueItem env ctx queueID (nextTick env d w0) = (.ok task, w1))
    (h2 : TaskPoll env ctx task w1 = (.ok task2, w2)) (hn : task2.number ≠ 0)
    (hurl : task2.url = taskURL P folders leaf)
    (hfuel : waitForJobToBePickedUpLoop env ctx d queueID (n + 1) w0 ≠ .outOfFuel) :
    jobPath (taskURL P folders leaf) = some (leaf ++ "/".toList, folders)
    ∧ (w2.trace ++ [.call (.getJob (leaf ++ "/".toList) folders)])
        <+: (waitForJobToBePickedUpLoop env ctx d queueID (n + 1) w0).trace := by
  have hp := jobPath_taskURL P folders leaf hP hP2 hf hl
  refine ⟨hp, ?_⟩
  rw [← hurl] at hp
  have hstep := pickUp_tick_lookup env ctx d queueID n w0 w1 w2 task task2 _ _ hd h1 h2 hn hp
  rw [hstep] at hfuel ⊢
  rcases h3 : GetJob env ctx (leaf ++ "/".toList) folders w2 with ⟨r3, w3⟩
  have t3 := remote_trace _ _ _ _ _ h3
  rw [h3] at hfuel
  have hrec : ∀ w' : World σ, (w2.trace ++ [.call (.getJob (leaf ++ "/".toList) folders)])
        <+: w'.trace →
      waitForJobToBePickedUpLoop env ctx d queueID n w' ≠ .outOfFuel →
      (w2.trace ++ [.call (.getJob (leaf ++ "/".toList) folders)])
        <+: (waitForJobToBePickedUpLoop env ctx d queueID n w').trace :=
    fun w' hw hne => hw.trans (waitForJobToBePickedUpLoop_trace env ctx d queueID n w' _ rfl hne)
  cases r3 with
  | error err =>
    by_cases h404 : mentions404 err = true
    · simp only [h404, if_true] at hfuel ⊢
      exact hrec w3 (by rw [t3]) hfuel
    · simp [h404, Run.trace, t3]
  | ok job =>
    simp only at hfuel ⊢
    rcases h4 : GetBuild env ctx job task2.number w3 with ⟨r4, w4⟩
    have t4 := remote_trace _ _ _ _ _ h4
    rw [h4] at hfuel
    cases r4 with
    | ok build => simp [Run.trace, t3, t4]
    | error err =>
      by_cases h404 : mentions404 err = true
      · simp only [h404, if_true] at hfuel ⊢
        exact hrec w4 (by rw [t4, t3]; exact List.prefix_append _ _) hfuel
      · simp [h404, Run.trace, t3, t4]

/-- Witness of C5 (amended) on `directServer`: the spec's task URL
`.../job/folder/job/myjob/`. -/
theorem queue_resolution_looks_up_job_path_witness :
    jobPath (taskURL "https://jenkins.example.org".toList ["folder".toList] "myjob".toList)
      = some ("myjob/".toList, ["folder".toList])
    ∧ [.tick 10, .call (.getQueueItem 42), .call (.taskPoll ⟨7, myjobURL⟩),
        .call (.getJob "myjob/".toList ["folder".toList])]
        <+: (waitForJobToBePickedUpLoop Server.env .background 10 42 1
              (Server.start directServer)).trace :=
  queue_resolution_looks_up_job_path "https://jenkins.example.org".toList ["folder".toList]
    "myjob".toList (by decide) (by decide) (by decide) (by decide)
    Server.env .background 10 42 0 (Server.start directServer) _ _ ⟨7, myjobURL⟩ ⟨7, myjobURL⟩
    rfl rfl rfl (by decide) (by decide)
    (by intro h; have := congrArg Run.result h; revert this; decide)

/-! ## `repeatNTimes`: what every run preserves -/

/-- `repeatNTimes` never panics. -/
theorem repeatNTimesLoop_ne_panic {κ : Type} (env : Env σ) (limit : Int)
    (fn : κ → World σ → Option GoError × κ × World σ) :
    ∀ (fuel : Nat) (errCnt : Int) (k : κ) (w : World σ) (reason : Str) (w1 : World σ),
      repeatNTimesLoop env limit fn fuel errCnt k w ≠ .panic reason w1 := by
  intro fuel
  induction fuel with
  | zero => intro errCnt k w reason w1; simp [repeatNTimesLoop]
  | succ n ih =>
    intro errCnt k w reason w1
    rcases hfn : fn k w with ⟨r, k1, w2⟩
    cases r with
    | none => simp [repeatNTimesLoop, hfn]
    | some err =>
      by_cases hl : errCnt = limit
      · simp [repeatNTimesLoop, hfn, hl]
      · simp only [repeatNTimesLoop, hfn, hl, if_false]
        exact ih _ _ _ _ _

/-- A transitive relation between the states of a `repeatNTimes` loop that
every invocation of the closure and every sleep respect holds between the
state the loop starts in and the state it returns in. -/
theorem repeatNTimesLoop_rel {κ : Type} (env : Env σ) (limit : Int)
    (fn : κ → World σ → Option GoError × κ × World σ)
    (R : κ × World σ → κ × World σ → Prop)
    (htrans : ∀ a b c, R a b → R b c → R a c)
    (hfn : ∀ k w, R (k, w) ((fn k w).2.1, (fn k w).2.2))
    (hsleep : ∀ k w, R (k, w) (k, Sleep env 100000000 w)) :
    ∀ (fuel : Nat) (errCnt : Int) (k : κ) (w : World σ) (r : Option GoError) (k1 : κ)
      (w1 : World σ),
      repeatNTimesLoop env limit fn fuel errCnt k w = .ret (r, k1) w1 → R (k, w) (k1, w1) := by
  intro fuel
  induction fuel with
  | zero => intro errCnt k w r k1 w1 h; simp [repeatNTimesLoop] at h
  | succ n ih =>
    intro errCnt k w r k1 w1 h
    have hf := hfn k w
    rcases hfnv : fn k w with ⟨r2, k2, w2⟩
    rw [hfnv] at hf
    simp only at hf
    cases r2 with
    | none =>
      simp only [repeatNTimesLoop, hfnv, Run.ret.injEq, Prod.mk.injEq] at h
      obtain ⟨⟨-, rfl⟩, rfl⟩ := h
      exact hf
    | some err =>
      by_cases hl : errCnt = limit
      · simp only [repeatNTimesLoop, hfnv, hl, if_true, Run.ret.injEq, Prod.mk.injEq] at h
        obtain ⟨⟨-, rfl⟩, rfl⟩ := h
        exact hf
      · simp only [repeatNTimesLoop, hfnv, hl, if_false] at h
        exact htrans _ _ _ hf (htrans _ _ _ (hsleep k2 w2) (ih _ _ _ _ _ _ h))

/-! ## Console cursors -/

theorem consoleStarts_append (a b : List Event) :
    consoleStarts (a ++ b) = consoleStarts a ++ consoleStarts b := by
  induction a with
  | nil => rfl
  | cons e es ih =>
    cases e with
    | call c => cases c <;> simp [consoleStarts, ih]
    | tick d => simp [consoleStarts, ih]
    | sleep d => simp [consoleStarts, ih]
    | write o t => simp [consoleStarts, ih]

theorem CursorsWithin.nil (a : Int) : CursorsWithin a a [] := by
  simp [CursorsWithin, consoleStarts]

theorem CursorsWithin.append {a b c : Int} {e1 e2 : List Event}
    (h1 : CursorsWithin a b e1) (h2 : CursorsWithin b c e2) : CursorsWithin a c (e1 ++ e2) := by
  obtain ⟨hab, hp1, hb1⟩ := h1
  obtain ⟨hbc, hp2, hb2⟩ := h2
  refine ⟨by omega, ?_, ?_⟩
  · rw [consoleStarts_append, List.pairwise_append]
    refine ⟨hp1, hp2, ?_⟩
    intro x hx y hy
    have := hb1 x hx
    have := hb2 y hy
    omega
  · intro x hx
    rw [consoleStarts_append, List.mem_append] at hx
    rcases hx with hx | hx
    · have := hb1 x hx; omega
    · have := hb2 x hx; omega

theorem CursorsWithin.of_no_fetch (a : Int) (evs : List Event) (h : consoleStarts evs = []) :
    CursorsWithin a a evs := by
  simp [CursorsWithin, h]

/-- One invocation of the closure of `readBuildOutput` extends the trace by
events whose console fetch starts at the cursor before, and leaves a cursor
that is not below it. -/
theorem readBuildOutputFn_cursor (env : Env σ) (hmono : ConsoleAdvances env) (ctx : Context)
    (output errOutput : Writer) (build : Build) (cur : Int) (more : Bool) (w : World σ) :
    ∃ evs, (readBuildOutputFn env ctx output errOutput build (cur, more) w).2.2.trace
        = w.trace ++ evs
      ∧ CursorsWithin cur (readBuildOutputFn env ctx output errOutput build (cur, more) w).2.1.1
          evs := by
  rcases h : GetConsoleOutputFromIndex env ctx build cur w with ⟨r, w1⟩
  have t1 := remote_trace _ _ _ _ _ h
  have s1 := remote_st _ _ _ _ _ h
  cases r with
  | error err =>
    refine ⟨[.call (.consoleOutput build cur),
      .write errOutput ((errors.Wrapf err "failed to get console output".toList).text
        ++ "\n".toList)], ?_, ?_⟩
    · simp [readBuildOutputFn, h, t1]
    · simp [readBuildOutputFn, h, CursorsWithin, consoleStarts]
  | ok resp =>
    have hle : cur ≤ resp.Offset := hmono ctx build cur w.st w1.st resp s1
    by_cases hc : resp.Content = []
    · refine ⟨[.call (.consoleOutput build cur)], ?_, ?_⟩
      · simp [readBuildOutputFn, h, hc, t1]
      · simp [readBuildOutputFn, h, CursorsWithin, consoleStarts, hle]
    · refine ⟨[.call (.consoleOutput build cur), .write output resp.Content], ?_, ?_⟩
      · simp [readBuildOutputFn, h, hc, t1]
      · simp [readBuildOutputFn, h, CursorsWithin, consoleStarts, hle]

theorem repeatNTimes_readBuildOutputFn_cursor (env : Env σ) (hmono : ConsoleAdvances env)
    (ctx : Context) (output errOutput : Writer) (build : Build) (cur : Int) (more : Bool)
    (w : World σ) (r : Option GoError) (cur1 : Int) (more1 : Bool) (w1 : World σ)
    (h : repeatNTimes env 5 (readBuildOutputFn env ctx output errOutput build) (cur, more) w
      = .ret (r, (cur1, more1)) w1) :
    ∃ evs, w1.trace = w.trace ++ evs ∧ CursorsWithin cur cur1 evs := by
  have := repeatNTimesLoop_rel env 5 (readBuildOutputFn env ctx output errOutput build)
    (fun a b => ∃ evs, b.2.trace = a.2.trace ++ evs ∧ CursorsWithin a.1.1 b.1.1 evs)
    (by
      rintro a b c ⟨e1, t1, c1⟩ ⟨e2, t2, c2⟩
      exact ⟨e1 ++ e2, by rw [t2, t1, List.append_assoc], c1.append c2⟩)
    (by
      rintro ⟨c, m⟩ w
      exact readBuildOutputFn_cursor env hmono ctx output errOutput build c m w)
    (by
      rintro ⟨c, m⟩ w
      exact ⟨[.sleep 100000000], by simp, CursorsWithin.of_no_fetch _ _ rfl⟩)
    _ _ _ _ _ _ _ h
  simpa using this

theorem readBuildOutputLoop_cursor (env : Env σ) (hmono : ConsoleAdvances env) (ctx : Context)
    (output errOutput : Writer) (build : Build) :
    ∀ (fuel : Nat) (cur : Int) (more : Bool) (w : World σ)
      (r : Run σ (Int × Option GoError)),
      readBuildOutputLoop env ctx output errOutput build fuel cur more w = r →
      r ≠ .outOfFuel →
      ∃ cur1 err w1 evs, r = .ret (cur1, err) w1 ∧ w1.trace = w.trace ++ evs
        ∧ CursorsWithin cur cur1 evs := by
  intro fuel
  induction fuel with
  | zero => intro cur more w r h hne; simp [readBuildOutputLoop] at h; exact absurd h.symm hne
  | succ n ih =>
    intro cur more w r h hne
    cases more with
    | false =>
      simp only [readBuildOutputLoop] at h
      subst h
      exact ⟨cur, none, w, [], by simp, by simp, CursorsWithin.nil cur⟩
    | true =>
      simp only [readBuildOutputLoop, if_true] at h
      rcases hrep : repeatNTimes env 5 (readBuildOutputFn env ctx output errOutput build)
          (cur, true) w with _ | ⟨reason, w1⟩ | ⟨⟨r1, cur1, more1⟩, w1⟩
      · rw [hrep] at h; exact absurd h.symm hne
      · exact absurd hrep (repeatNTimesLoop_ne_panic env 5 _ _ _ _ _ _ _)
      · obtain ⟨e1, t1, c1⟩ := repeatNTimes_readBuildOutputFn_cursor env hmono ctx output
          errOutput build cur true w r1 cur1 more1 w1 hrep
        rw [hrep] at h
        cases r1 with
        | some err =>
          simp only at h
          subst h
          exact ⟨cur1, some err, w1, e1, rfl, t1, c1⟩
        | none =>
          simp only at h
          obtain ⟨cur2, err, w2, e2, hr, t2, c2⟩ := ih cur1 more1 w1 r h hne
          exact ⟨cur2, err, w2, e1 ++ e2, hr, by rw [t2, t1, List.append_assoc], c1.append c2⟩

/-- For a non-negative limit `repeatNTimes` returns. -/
theorem repeatNTimesLoop_returns {κ : Type} (env : Env σ) (limit : Int)
    (fn : κ → World σ → Option GoError × κ × World σ) :
    ∀ (fuel : Nat) (errCnt : Int) (k : κ) (w : World σ), errCnt ≤ limit →
      (limit - errCnt).toNat < fuel →
      ∃ r k1 w1, repeatNTimesLoop env limit fn fuel errCnt k w = .ret (r, k1) w1 := by
  intro fuel
  induction fuel with
  | zero => intro errCnt k w _ h; omega
  | succ n ih =>
    intro errCnt k w hle hfuel
    rcases hfn : fn k w with ⟨r, k1, w2⟩
    cases r with
    | none => exact ⟨none, k1, w2, by simp [repeatNTimesLoop, hfn]⟩
    | some err =>
      by_cases hl : errCnt = limit
      · exact ⟨some err, k1, w2, by simp [repeatNTimesLoop, hfn, hl]⟩
      · simp only [repeatNTimesLoop, hfn, hl, if_false]
        exact ih _ _ _ (by omega) (by omega)

theorem repeatNTimes_returns {κ : Type} (env : Env σ) (limit : Int) (hlimit : 0 ≤ limit)
    (fn : κ → World σ → Option GoError × κ × World σ) (k : κ) (w : World σ) :
    ∃ r k1 w1, repeatNTimes env limit fn k w = .ret (r, k1) w1 :=
  repeatNTimesLoop_returns env limit fn _ 0 k w hlimit (by omega)

/-- `readBuildState` returns, and fetches no console output. -/
theorem readBuildState_returns (env : Env σ) (ctx : Context) (errOutput : Writer)
    (build : Build) (w : World σ) :
    ∃ err w1 evs, readBuildState env ctx errOutput build w = .ret err w1
      ∧ w1.trace = w.trace ++ evs ∧ consoleStarts evs = [] := by
  obtain ⟨r, k1, w1, h⟩ := repeatNTimes_returns env 5 (by decide)
    (readBuildStateFn env ctx errOutput build) () w
  have hrel := repeatNTimesLoop_rel env 5 (readBuildStateFn env ctx errOutput build)
    (fun a b => ∃ evs, b.2.trace = a.2.trace ++ evs ∧ consoleStarts evs = [])
    (by
      rintro a b c ⟨e1, t1, c1⟩ ⟨e2, t2, c2⟩
      exact ⟨e1 ++ e2, by rw [t2, t1, List.append_assoc], by rw [consoleStarts_append, c1, c2]; rfl⟩)
    (by
      rintro ⟨⟩ w
      rcases hp : BuildPoll env ctx build w with ⟨r, w1⟩
      have t1 := remote_trace _ _ _ _ _ hp
      cases r with
      | none => exact ⟨[.call (.buildPoll build)], by simp [readBuildStateFn, hp, t1], rfl⟩
      | some err =>
        exact ⟨[.call (.buildPoll build),
          .write errOutput ((errors.Wrapf err "failed to read build state".toList).text
            ++ "\n".toList)], by simp [readBuildStateFn, hp, t1], rfl⟩)
    (by
      rintro ⟨⟩ w
      exact ⟨[.sleep 100000000], by simp, rfl⟩)
    _ _ _ _ _ _ _ h
  obtain ⟨evs, t, c⟩ := hrel
  exact ⟨r, w1, evs, by simp [readBuildState, h], t, c⟩

/-- Whatever `waitBuildToComplete` does is appended to the trace, and when
the server's console advances, its console fetches start at non-decreasing
offsets, none below the cursor the loop is entered with. -/
theorem waitBuildToCompleteLoop_cursor (fuel : Nat) (env : Env σ) (hmono : ConsoleAdvances env)
    (ctx : Context) (output : Option Writer) (errOutput : Writer) (d : Int) (build : Build) :
    ∀ (ticks : Nat) (cur : Int) (w : World σ) (r : Run σ (Option GoError)),
      waitBuildToCompleteLoop fuel env ctx output errOutput d build ticks cur w = r →
      r ≠ .outOfFuel →
      ∃ evs hi, r.trace = w.trace ++ evs ∧ CursorsWithin cur hi evs := by
  intro ticks
  induction ticks with
  | zero => intro cur w r h hne; simp [waitBuildToCompleteLoop] at h; exact absurd h.symm hne
  | succ n ih =>
    intro cur w r h hne
    simp only [waitBuildToCompleteLoop] at h
    have c0 : CursorsWithin cur cur [Event.tick d] := CursorsWithin.of_no_fetch _ _ rfl
    split at h
    · subst h
      exact ⟨[.tick d], cur, by simp [Run.trace], c0⟩
    · have hread : ∀ rr : Run σ (Int × Option GoError),
          drainOutput fuel env ctx output errOutput cur build (nextTick env d w) = rr →
          rr ≠ .outOfFuel →
          ∃ cur1 err w1 evs, rr = .ret (cur1, err) w1
            ∧ w1.trace = (nextTick env d w).trace ++ evs ∧ CursorsWithin cur cur1 evs := by
        intro rr hrr hrne
        cases output with
        | none =>
          simp only [drainOutput] at hrr
          subst hrr
          exact ⟨cur, none, _, [], rfl, by simp, CursorsWithin.nil cur⟩
        | some out =>
          simp only [drainOutput] at hrr
          exact readBuildOutputLoop_cursor env hmono ctx out errOutput build fuel cur true _ rr
            hrr hrne
      generalize hrr : drainOutput fuel env ctx output errOutput cur build (nextTick env d w)
          = rr at h
      by_cases hrne : rr = .outOfFuel
      · subst hrne
        simp only at h
        exact absurd h.symm hne
      · obtain ⟨cur1, err, w1, e1, rfl, t1, c1⟩ := hread rr hrr hrne
        cases err with
        | some e =>
          simp only at h
          subst h
          exact ⟨[.tick d] ++ e1, cur1, by simp [Run.trace, t1], c0.append c1⟩
        | none =>
          simp only at h
          obtain ⟨err2, w2, e2, hs, t2, c2⟩ := readBuildState_returns env ctx errOutput build w1
          rw [hs] at h
          have c12 : CursorsWithin cur cur1 ([.tick d] ++ e1 ++ e2) :=
            (c0.append c1).append (CursorsWithin.of_no_fetch _ _ c2)
          have t12 : w2.trace = w.trace ++ ([.tick d] ++ e1 ++ e2) := by
            rw [t2, t1]; simp
          cases err2 with
          | some e =>
            simp only at h
            subst h
            exact ⟨_, cur1, t12, c12⟩
          | none =>
            simp only at h
            rcases hrun : IsRunning env ctx build w2 with ⟨b, w3⟩
            have t3 := remote_trace _ _ _ _ _ hrun
            rw [hrun] at h
            have c3 : CursorsWithin cur cur1 ([.tick d] ++ e1 ++ e2 ++ [.call (.isRunning build)]) :=
              c12.append (CursorsWithin.of_no_fetch _ _ rfl)
            have t13 : w3.trace = w.trace ++ ([.tick d] ++ e1 ++ e2 ++ [.call (.isRunning build)]) := by
              rw [t3, t12]; simp
            cases b with
            | false =>
              simp only at h
              subst h
              exact ⟨_, cur1, t13, c3⟩
            | true =>
              simp only at h
              obtain ⟨e4, hi, t4, c4⟩ := ih cur1 w3 r h hne
              exact ⟨_ ++ e4, hi, by rw [t4, t13, List.append_assoc], c3.append c4⟩

/-- C9 (amended).  On a server that never answers a console fetch with an
offset below the one requested, for every build, every starting cursor and
every sequence of console responses: the cursor returned by
`readBuildOutput` is greater than or equal to the cursor it was called with,
also when it returns an error; and in every run of `waitBuildToComplete`
that ends, the console fetches start at non-decreasing offsets, so the
cursors passed to successive `readBuildOutput` calls (the offsets of their
first fetches) never rewind. -/
theorem console_cursor_never_rewinds (env : Env σ) (hmono : ConsoleAdvances env) (fuel : Nat)
    (ctx : Context) (errOutput : Writer) (build : Build) (w : World σ) :
    (∀ (out : Writer) (start cur : Int) (err : Option GoError) (w1 : World σ),
      readBuildOutput fuel env ctx out errOutput start build w = .ret (cur, err) w1 →
      start ≤ cur)
    ∧ (∀ (output : Option Writer) (d : Int),
      waitBuildToComplete fuel env ctx output errOutput d build w ≠ .outOfFuel →
      ∃ evs, (waitBuildToComplete fuel env ctx output errOutput d build w).trace
          = w.trace ++ evs
        ∧ (consoleStarts evs).Pairwise (· ≤ ·)) := by
  constructor
  · intro out start cur err w1 h
    obtain ⟨cur1, err1, w2, evs, hr, -, c⟩ := readBuildOutputLoop_cursor env hmono ctx out
      errOutput build fuel start true w _ h (by simp)
    simp only [Run.ret.injEq, Prod.mk.injEq] at hr
    obtain ⟨⟨rfl, -⟩, -⟩ := hr
    exact c.1
  · intro output d hne
    by_cases hd : d ≤ 0
    · exact ⟨[], by simp [waitBuildToComplete, hd, Run.trace], by simp [consoleStarts]⟩
    · simp only [waitBuildToComplete, hd, if_false] at hne ⊢
      obtain ⟨evs, hi, t, c⟩ := waitBuildToCompleteLoop_cursor fuel env hmono ctx output
        errOutput d build fuel 0 w _ rfl hne
      exact ⟨evs, t, c.2.1⟩

theorem progressiveEnv_advances : ConsoleAdvances Server.progressiveEnv := by
  intro ctx build start s s1 resp h
  simp only [Server.progressiveEnv] at h
  rcases hn : Server.next s.console with ⟨r, rest⟩
  rw [hn] at h
  cases r with
  | error e => simp at h
  | ok a =>
    simp only [Prod.mk.injEq, Except.ok.injEq] at h
    rw [← h.1]
    simp

/-- Witness of C9 (amended) on the progressive console of `loggingServer`:
called with cursor 10, `readBuildOutput` fetches at 10 and twice at 12 (the
first of the two fails) and returns 13; `waitBuildToComplete` then fetches
at 0, 2, 2 and 3. -/
theorem console_cursor_never_rewinds_witness :
    (10 : Int) ≤ 13
    ∧ ∃ evs, (waitBuildToComplete 5 Server.progressiveEnv .background (some .stdout) .stderr 10
          ⟨9⟩ (Server.start loggingServer)).trace = (Server.start loggingServer).trace ++ evs
        ∧ (consoleStarts evs).Pairwise (· ≤ ·) :=
  ⟨(console_cursor_never_rewinds Server.progressiveEnv progressiveEnv_advances 5 .background
      .stderr ⟨9⟩ (Server.start loggingServer)).1 .stdout 10 13 none _ rfl,
    (console_cursor_never_rewinds Server.progressiveEnv progressiveEnv_advances 5 .background
      .stderr ⟨9⟩ (Server.start loggingServer)).2 (some .stdout) 10
      (by intro h; have := congrArg Run.result h; revert this; decide)⟩

/-- Counterexample to C9 as stated: called with cursor 10 on `rewindServer`,
whose console answers offset 0, `readBuildOutput` returns the cursor 0. -/
theorem readBuildOutput_rewinds_with_server :
    (readBuildOutput 3 Server.env .background .stdout .stderr 10 ⟨9⟩
        (Server.start rewindServer)).result = some (0, none)
    ∧ ¬ ((10 : Int) ≤ 0) := by
  refine ⟨by decide, by decide⟩

/-! ## `execute` -/

/-- C6.  For every run of `execute` that initialises the client, obtains a
build and whose wait loop returns no error: with `good` the answer of the
server's success predicate `IsGood` for the build, `execute` returns no
error exactly when `good` holds, after writing the success report
`Job <jobName> successfully completed, URL: <build URL>`; otherwise it
returns the error whose message is `Job <jobName> failed, URL: <build URL>`,
with the same job name and the same build URL. -/
theorem execute_terminal (fuel : Nat) (env : Env σ) (ctx : Context)
    (baseURL user password jobName jobParameters : Str) (buildID waitTimeout d : Int)
    (w w1 w2 w3 w4 : World σ) (build : Build) (good : Bool)
    (hinit : Init env ctx baseURL user password w = (none, w1))
    (hattach : attach fuel env ctx jobName jobParameters buildID waitTimeout d w1
      = .ret (some build, none) w2)
    (hwait : waitBuildToComplete fuel env ctx (some .stdout) .stderr d build w2 = .ret none w3)
    (hgood : IsGood env ctx build w3 = (good, w4)) :
    ((execute fuel env ctx baseURL user password jobName jobParameters buildID waitTimeout d w
        ).result = some none ↔ good = true)
    ∧ (good = true →
      execute fuel env ctx baseURL user password jobName jobParameters buildID waitTimeout d w
        = .ret none (Fprint .stdout ("Job ".toList ++ jobName
            ++ " successfully completed, URL: ".toList ++ env.buildUrl build w4.st
            ++ "\n".toList) w4))
    ∧ (good = false →
      execute fuel env ctx baseURL user password jobName jobParameters buildID waitTimeout d w
        = .ret (some ⟨0, "Job ".toList ++ jobName ++ " failed, URL: ".toList
            ++ env.buildUrl build w4.st⟩) w4) := by
  cases good with
  | true =>
    have h : execute fuel env ctx baseURL user password jobName jobParameters buildID
        waitTimeout d w
        = .ret none (Fprint .stdout ("Job ".toList ++ jobName
            ++ " successfully completed, URL: ".toList ++ env.buildUrl build w4.st
            ++ "\n".toList) w4) := by
      simp only [execute, hinit, hattach, hwait, hgood]
    refine ⟨by simp [h, Run.result], fun _ => h, by simp⟩
  | false =>
    have h : execute fuel env ctx baseURL user password jobName jobParameters buildID
        waitTimeout d w
        = .ret (some ⟨0, "Job ".toList ++ jobName ++ " failed, URL: ".toList
            ++ env.buildUrl build w4.st⟩) w4 := by
      simp only [execute, hinit, hattach, hwait, hgood, errors.Errorf]
    refine ⟨by simp [h, Run.result], by simp, fun _ => h⟩

/-- Witness of C6 on `failedServer`: build 7 has finished without success
and `execute` returns the build-failure error. -/
theorem execute_terminal_witness :
    (execute 5 Server.env .background "https://jenkins.example.org".toList "user".toList
        "secret".toList "folder/myjob".toList [] 7 0 10 (Server.start failedServer)).result
      = some (some ⟨0, "Job folder/myjob failed, URL: ".toList ++ build7URL⟩) :=
  congrArg Run.result
    ((execute_terminal 5 Server.env .background "https://jenkins.example.org".toList
      "user".toList "secret".toList "folder/myjob".toList [] 7 0 10 (Server.start failedServer)
      _ _ _ _ ⟨9⟩ false rfl rfl rfl rfl).2.2 rfl)

/-- With a build ID, `execute` does not use the wait timeout: any two values
of it give the same run. -/
theorem execute_with_buildID_ignores_waitTimeout (fuel : Nat) (env : Env σ) (ctx : Context)
    (baseURL user password jobName jobParameters : Str) (buildID d : Int) (hb : buildID ≠ 0)
    (t1 t2 : Int) (w : World σ) :
    execute fuel env ctx baseURL user password jobName jobParameters buildID t1 d w
      = execute fuel env ctx baseURL user password jobName jobParameters buildID t2 d w := by
  simp [execute, attach, hb]

/-- Under a context without deadline the wait loop never takes its timeout
branch: `ctx.Done()` is never closed. -/
theorem background_never_done (env : Env σ) (w : World σ) :
    Context.background.isDone env w = false := rfl

/-- C1, the code at the failing inputs.  With a build ID (7), a wait timeout
of 0 and a build that is still running at the first tick and finishes with
success at the second (`runningServer`), `execute` returns no error and
writes the success report: there is no timeout.  Without a build ID, with a
wait timeout of 1000ns and a tick every 500ns (`slowServer`), the build is
picked up at 500ns and is still running at 1000ns, 1500ns and 2000ns, past
the deadline; `execute` keeps polling and returns no error at 2500ns. -/
theorem execute_wait_phase_ignores_waitTimeout :
    (execute 5 Server.env .background "https://jenkins.example.org".toList "user".toList
        "secret".toList "folder/myjob".toList [] 7 0 10 (Server.start runningServer)).result
      = some none
    ∧ (execute 5 Server.env .background "https://jenkins.example.org".toList "user".toList
        "secret".toList "folder/myjob".toList [] 7 0 10 (Server.start runningServer)).trace.getLast?
      = some (.write .stdout
          ("Job folder/myjob successfully completed, URL: ".toList ++ build7URL ++ "\n".toList))
    ∧ (execute 8 Server.env .background "https://jenkins.example.org".toList "user".toList
        "secret".toList "folder/myjob".toList [] 0 1000 500 (Server.start slowServer)).result
      = some none
    ∧ ((execute 8 Server.env .background "https://jenkins.example.org".toList "user".toList
        "secret".toList "folder/myjob".toList [] 0 1000 500 (Server.start slowServer)).state?.map
          (fun s => s.clock)) = some 2500 := by
  refine ⟨by decide, by decide, by decide, by decide⟩

/-! ## `startNewBuild` -/

theorem remote_no_zero_lookup {α : Type} (c : Call) (op : σ → α × σ) (w w1 : World σ) (a : α)
    (h : remote c op w = (a, w1)) (hc : c ≠ .getQueueItem 0) (hw : zeroQueueLookup ∉ w.trace) :
    zeroQueueLookup ∉ w1.trace := by
  rw [remote_trace c op w w1 a h]
  simp only [List.mem_append, List.mem_singleton, not_or]
  refine ⟨hw, ?_⟩
  intro e
  simp only [zeroQueueLookup, Event.call.injEq] at e
  exact hc e.symm

/-- A queue resolution started with a non-zero queue identifier makes no
lookup of queue item 0. -/
theorem waitForJobToBePickedUpLoop_no_zero_lookup (env : Env σ) (ctx : Context) (d : Int)
    (queueID : Int) (hq : queueID ≠ 0) :
    ∀ (ticks : Nat) (w : World σ) (r : Run σ (Option Build × Option GoError)),
      waitForJobToBePickedUpLoop env ctx d queueID ticks w = r →
      zeroQueueLookup ∉ w.trace → zeroQueueLookup ∉ r.trace := by
  intro ticks
  induction ticks with
  | zero => intro w r hr _; simp [waitForJobToBePickedUpLoop] at hr; subst hr; simp [Run.trace]
  | succ n ih =>
    intro w r hr hw
    have hq1 : Call.getQueueItem queueID ≠ .getQueueItem 0 := by simpa using hq
    have hw0 : zeroQueueLookup ∉ (nextTick env d w).trace := by
      simpa [zeroQueueLookup] using hw
    unfold waitForJobToBePickedUpLoop at hr
    simp only at hr
    split at hr
    · subst hr; exact hw0
    · split at hr
      · rename_i err w1 h1
        have n1 := remote_no_zero_lookup _ _ _ _ _ h1 hq1 hw0
        split at hr
        · exact ih _ _ hr n1
        · subst hr; exact n1
      · rename_i task w1 h1
        have n1 := remote_no_zero_lookup _ _ _ _ _ h1 hq1 hw0
        split at hr
        · rename_i err w2 h2
          have n2 := remote_no_zero_lookup _ _ _ _ _ h2 (by simp) n1
          split at hr
          · exact ih _ _ hr n2
          · subst hr; exact n2
        · rename_i task2 w2 h2
          have n2 := remote_no_zero_lookup _ _ _ _ _ h2 (by simp) n1
          split at hr
          · exact ih _ _ hr n2
          · split at hr
            · subst hr; exact n2
            · rename_i leaf parents hp
              split at hr
              · rename_i err w3 h3
                have n3 := remote_no_zero_lookup _ _ _ _ _ h3 (by simp) n2
                split at hr
                · exact ih _ _ hr n3
                · subst hr; exact n3
              · rename_i job w3 h3
                have n3 := remote_no_zero_lookup _ _ _ _ _ h3 (by simp) n2
                split at hr
                · rename_i build w4 h4
                  have n4 := remote_no_zero_lookup _ _ _ _ _ h4 (by simp) n3
                  subst hr; exact n4
                · rename_i err w4 h4
                  have n4 := remote_no_zero_lookup _ _ _ _ _ h4 (by simp) n3
                  split at hr
                  · exact ih _ _ hr n4
                  · subst hr; exact n4

theorem waitForJobToBePickedUp_no_zero_lookup (fuel : Nat) (env : Env σ) (ctx : Context)
    (d : Int) (queueID : Int) (hq : queueID ≠ 0) (w : World σ)
    (hw : zeroQueueLookup ∉ w.trace) :
    zeroQueueLookup ∉ (waitForJobToBePickedUp fuel env ctx d queueID w).trace := by
  unfold waitForJobToBePickedUp
  split
  · exact hw
  · exact waitForJobToBePickedUpLoop_no_zero_lookup env ctx d queueID hq fuel w _ rfl hw

theorem waitForJobToBePickedUp_trace (fuel : Nat) (env : Env σ) (ctx : Context)
    (d : Int) (queueID : Int) (w : World σ)
    (hne : waitForJobToBePickedUp fuel env ctx d queueID w ≠ .outOfFuel) :
    w.trace <+: (waitForJobToBePickedUp fuel env ctx d queueID w).trace := by
  unfold waitForJobToBePickedUp at hne ⊢
  split
  · exact List.prefix_refl _
  · rename_i hd
    simp only [hd, if_false] at hne
    exact waitForJobToBePickedUpLoop_trace env ctx d queueID fuel w _ rfl hne

/-- A submission that is answered with queue identifier 0 is discarded: the
loop of `startNewBuild` starts over after the sleep of one second. -/
theorem startNewBuild_discards_zero (fuel : Nat) (env : Env σ) (ctx : Context)
    (jobName jobParameters : Str) (d : Int) (rounds : Nat) (w w1 w2 : World σ) (job : Job)
    (params : Params)
    (hd : ctx.isDone env w = false) (hjob : GetJob env ctx jobName [] w = (.ok job, w1))
    (hparse : (if jobParameters ≠ [] then env.parseParams jobParameters else .ok []) = .ok params)
    (hinvoke : InvokeSimple env ctx job params w1 = (.ok 0, w2)) :
    startNewBuildLoop fuel env ctx jobName jobParameters d (rounds + 1) w
      = startNewBuildLoop fuel env ctx jobName jobParameters d rounds
          (Sleep env 1000000000 w2) := by
  simp only [startNewBuildLoop, hd, hjob, hparse, hinvoke]
  simp

/-- Whatever `startNewBuild` does is appended to the trace. -/
theorem startNewBuildLoop_trace (fuel : Nat) (env : Env σ) (ctx : Context)
    (jobName jobParameters : Str) (d : Int) :
    ∀ (rounds : Nat) (w : World σ) (r : Run σ (Option Build × Option GoError)),
      startNewBuildLoop fuel env ctx jobName jobParameters d rounds w = r → r ≠ .outOfFuel →
      w.trace <+: r.trace := by
  intro rounds
  induction rounds with
  | zero => intro w r hr h; simp [startNewBuildLoop] at hr; exact absurd hr.symm h
  | succ n ih =>
    intro w r hr h
    unfold startNewBuildLoop at hr
    split at hr
    · subst hr; simp [Run.trace]
    · split at hr
      · rename_i err w1 h1
        have t1 := remote_trace _ _ _ _ _ h1
        subst hr; simp [Run.trace, t1]
      · rename_i job w1 h1
        have t1 := remote_trace _ _ _ _ _ h1
        split at hr
        · subst hr; simp [Run.trace, t1]
        · rename_i params hparse
          split at hr
          · rename_i err w2 h2
            have t2 := remote_trace _ _ _ _ _ h2
            subst hr; simp [Run.trace, t1, t2]
          · rename_i queueID w2 h2
            have t2 := remote_trace _ _ _ _ _ h2
            split at hr
            · exact List.IsPrefix.trans (by simp [t1, t2]) (ih _ _ hr h)
            · have hpre : ∀ w3 : World σ,
                  (Fprint Writer.stdout ("Job ".toList ++ jobName ++ " is queued with id ".toList
                    ++ fmtInt queueID ++ ", waiting for working to pick it up\n".toList) w2).trace
                    <+: w3.trace → w.trace <+: w3.trace := by
                intro w3 h3
                exact List.IsPrefix.trans (by simp [t1, t2]) h3
              split at hr
              · exact absurd hr.symm h
              · rename_i reason w3 hwait
                have := waitForJobToBePickedUp_trace fuel env ctx d queueID _ (by rw [hwait]; simp)
                rw [hwait] at this
                subst hr
                exact hpre w3 this
              · rename_i b err w3 hwait
                have := waitForJobToBePickedUp_trace fuel env ctx d queueID _ (by rw [hwait]; simp)
                rw [hwait] at this
                subst hr
                exact hpre w3 this
              · rename_i w3 hwait
                have := waitForJobToBePickedUp_trace fuel env ctx d queueID _ (by rw [hwait]; simp)
                rw [hwait] at this
                subst hr
                exact hpre w3 this
              · rename_i build w3 hwait
                have := waitForJobToBePickedUp_trace fuel env ctx d queueID _ (by rw [hwait]; simp)
                rw [hwait] at this
                subst hr
                exact List.IsPrefix.trans (hpre w3 this) (by simp [Run.trace])

/-- `startNewBuild` never looks up queue item 0. -/
theorem startNewBuildLoop_no_zero_lookup (fuel : Nat) (env : Env σ) (ctx : Context)
    (jobName jobParameters : Str) (d : Int) :
    ∀ (rounds : Nat) (w : World σ) (r : Run σ (Option Build × Option GoError)),
      startNewBuildLoop fuel env ctx jobName jobParameters d rounds w = r →
      zeroQueueLookup ∉ w.trace → zeroQueueLookup ∉ r.trace := by
  intro rounds
  induction rounds with
  | zero => intro w r hr _; simp [startNewBuildLoop] at hr; subst hr; simp [Run.trace]
  | succ n ih =>
    intro w r hr hw
    unfold startNewBuildLoop at hr
    split at hr
    · subst hr; exact hw
    · split at hr
      · rename_i err w1 h1
        have n1 := remote_no_zero_lookup _ _ _ _ _ h1 (by simp) hw
        subst hr; exact n1
      · rename_i job w1 h1
        have n1 := remote_no_zero_lookup _ _ _ _ _ h1 (by simp) hw
        split at hr
        · subst hr; exact n1
        · rename_i params hparse
          split at hr
          · rename_i err w2 h2
            have n2 := remote_no_zero_lookup _ _ _ _ _ h2 (by simp) n1
            subst hr; exact n2
          · rename_i queueID w2 h2
            have n2 := remote_no_zero_lookup _ _ _ _ _ h2 (by simp) n1
            split at hr
            · exact ih _ _ hr (by simpa [zeroQueueLookup] using n2)
            · rename_i hq
              have n3 := waitForJobToBePickedUp_no_zero_lookup fuel env ctx d queueID hq
                (Fprint Writer.stdout ("Job ".toList ++ jobName ++ " is queued with id ".toList
                  ++ fmtInt queueID ++ ", waiting for working to pick it up\n".toList) w2)
                (by simpa [zeroQueueLookup] using n2)
              split at hr
              · subst hr; simp [Run.trace]
              · rename_i reason w3 hwait
                rw [hwait] at n3
                subst hr; exact n3
              · rename_i b err w3 hwait
                rw [hwait] at n3
                subst hr; exact n3
              · rename_i w3 hwait
                rw [hwait] at n3
                subst hr; exact n3
              · rename_i build w3 hwait
                rw [hwait] at n3
                subst hr
                simpa [Run.trace, zeroQueueLookup] using n3

/-- A build returned by `startNewBuild` is the build returned by a queue
resolution that was started with a non-zero queue identifier. -/
theorem startNewBuildLoop_resolved (fuel : Nat) (env : Env σ) (ctx : Context)
    (jobName jobParameters : Str) (d : Int) :
    ∀ (rounds : Nat) (w wf : World σ) (build : Build),
      startNewBuildLoop fuel env ctx jobName jobParameters d rounds w
        = .ret (some build, none) wf →
      ∃ queueID w1 w2, queueID ≠ 0
        ∧ waitForJobToBePickedUp fuel env ctx d queueID w1 = .ret (some build, none) w2 := by
  intro rounds
  induction rounds with
  | zero => intro w wf build hr; simp [startNewBuildLoop] at hr
  | succ n ih =>
    intro w wf build hr
    unfold startNewBuildLoop at hr
    split at hr
    · simp at hr
    · split at hr
      · simp at hr
      · split at hr
        · simp at hr
        · split at hr
          · simp at hr
          · rename_i queueID w2 h2
            split at hr
            · exact ih _ _ _ hr
            · rename_i hq
              split at hr
              · simp at hr
              · simp at hr
              · simp at hr
              · simp at hr
              · rename_i b w3 hwait
                simp only [Run.ret.injEq, Prod.mk.injEq, Option.some.injEq, and_true] at hr
                obtain ⟨rfl, -⟩ := hr
                exact ⟨queueID, _, w3, hq, hwait⟩

/-- A round of `startNewBuild` that finds the job and parses the parameters
submits the job: its next remote call is `InvokeSimple`. -/
theorem startNewBuildLoop_submits (fuel : Nat) (env : Env σ) (ctx : Context)
    (jobName jobParameters : Str) (d : Int) (rounds : Nat) (w w1 : World σ) (job : Job)
    (params : Params)
    (hd : ctx.isDone env w = false) (hjob : GetJob env ctx jobName [] w = (.ok job, w1))
    (hparse : (if jobParameters ≠ [] then env.parseParams jobParameters else .ok []) = .ok params)
    (hne : startNewBuildLoop fuel env ctx jobName jobParameters d (rounds + 1) w ≠ .outOfFuel) :
    (w1.trace ++ [.call (.invokeSimple job params)])
      <+: (startNewBuildLoop fuel env ctx jobName jobParameters d (rounds + 1) w).trace := by
  rcases hinv : InvokeSimple env ctx job params w1 with ⟨r2, w2⟩
  have t2 := remote_trace _ _ _ _ _ hinv
  generalize hr : startNewBuildLoop fuel env ctx jobName jobParameters d (rounds + 1) w = r at hne
  simp only [startNewBuildLoop, hd, hjob, hparse, hinv] at hr
  rw [← t2]
  cases r2 with
  | error err =>
    simp only [Bool.false_eq_true, if_false] at hr
    subst hr
    simp [Run.trace]
  | ok queueID =>
    simp only [Bool.false_eq_true, if_false] at hr
    split at hr
    · exact List.IsPrefix.trans (by simp) (startNewBuildLoop_trace fuel env ctx jobName
        jobParameters d rounds _ r hr hne)
    · have hpre : ∀ w3 : World σ,
          (Fprint Writer.stdout ("Job ".toList ++ jobName ++ " is queued with id ".toList
            ++ fmtInt queueID ++ ", waiting for working to pick it up\n".toList) w2).trace
            <+: w3.trace → w2.trace <+: w3.trace := by
        intro w3 h3
        exact List.IsPrefix.trans (by simp) h3
      split at hr
      · exact absurd hr.symm hne
      · rename_i reason w3 hwait
        have := waitForJobToBePickedUp_trace fuel env ctx d queueID _ (by rw [hwait]; simp)
        rw [hwait] at this
        subst hr
        exact hpre w3 this
      · rename_i b err w3 hwait
        have := waitForJobToBePickedUp_trace fuel env ctx d queueID _ (by rw [hwait]; simp)
        rw [hwait] at this
        subst hr
        exact hpre w3 this
      · rename_i w3 hwait
        have := waitForJobToBePickedUp_trace fuel env ctx d queueID _ (by rw [hwait]; simp)
        rw [hwait] at this
        subst hr
        exact hpre w3 this
      · rename_i build w3 hwait
        have := waitForJobToBePickedUp_trace fuel env ctx d queueID _ (by rw [hwait]; simp)
        rw [hwait] at this
        subst hr
        exact List.IsPrefix.trans (hpre w3 this) (by simp [Run.trace])

/-- C4 (amended).  In `startNewBuild`, for every sequence of remote
responses: whenever `InvokeSimple` returns queue identifier 0, the
submission is discarded (the loop starts over after the sleep of one second,
no queue resolution having been started) and, unless the deadline has
elapsed or the job lookup of the next round fails, the job is submitted
again (the next remote call after that job lookup is `InvokeSimple`);
`startNewBuild` never looks up queue item 0, and every build it returns is
the build returned by a queue resolution started with a non-zero queue
identifier. -/
theorem startNewBuild_zero_queue_identifier (fuel : Nat) (env : Env σ) (ctx : Context)
    (jobName jobParameters : Str) (d : Int) :
    (∀ (rounds : Nat) (w w1 w2 : World σ) (job : Job) (params : Params),
      ctx.isDone env w = false → GetJob env ctx jobName [] w = (.ok job, w1) →
      (if jobParameters ≠ [] then env.parseParams jobParameters else .ok []) = .ok params →
      InvokeSimple env ctx job params w1 = (.ok 0, w2) →
      startNewBuildLoop fuel env ctx jobName jobParameters d (rounds + 1) w
          = startNewBuildLoop fuel env ctx jobName jobParameters d rounds
              (Sleep env 1000000000 w2)
        ∧ ∀ (job2 : Job) (w3 : World σ),
          ctx.isDone env (Sleep env 1000000000 w2) = false →
          GetJob env ctx jobName [] (Sleep env 1000000000 w2) = (.ok job2, w3) →
          startNewBuildLoop fuel env ctx jobName jobParameters d (rounds + 1) w ≠ .outOfFuel →
          (w3.trace ++ [.call (.invokeSimple job2 params)])
            <+: (startNewBuildLoop fuel env ctx jobName jobParameters d (rounds + 1) w).trace)
    ∧ (∀ w : World σ, zeroQueueLookup ∉ w.trace →
      zeroQueueLookup ∉ (startNewBuild fuel env ctx jobName jobParameters d w).trace)
    ∧ (∀ (w wf : World σ) (build : Build),
      startNewBuild fuel env ctx jobName jobParameters d w = .ret (some build, none) wf →
      ∃ queueID w1 w2, queueID ≠ 0
        ∧ waitForJobToBePickedUp fuel env ctx d queueID w1 = .ret (some build, none) w2) := by
  refine ⟨?_, ?_, ?_⟩
  · intro rounds w w1 w2 job params hd hjob hparse hinvoke
    have hdis := startNewBuild_discards_zero fuel env ctx jobName jobParameters d rounds w w1 w2
      job params hd hjob hparse hinvoke
    refine ⟨hdis, ?_⟩
    intro job2 w3 hd2 hjob2 hne
    rw [hdis] at hne ⊢
    cases rounds with
    | zero => simp [startNewBuildLoop] at hne
    | succ n =>
      exact startNewBuildLoop_submits fuel env ctx jobName jobParameters d n _ w3 job2 params
        hd2 hjob2 hparse hne
  · intro w hw
    exact startNewBuildLoop_no_zero_lookup fuel env ctx jobName jobParameters d fuel w _ rfl hw
  · intro w wf build h
    exact startNewBuildLoop_resolved fuel env ctx jobName jobParameters d fuel w wf build h

/-- Witness of C4 (amended) on `resubmitServer`: the first submission gets
queue identifier 0, and after the sleep and the job lookup of the second
round the job is submitted again. -/
theorem startNewBuild_zero_queue_identifier_witness :
    [.call (.getJob "folder/myjob".toList []), .call (.invokeSimple ⟨1⟩ []), .sleep 1000000000,
      .call (.getJob "folder/myjob".toList []), .call (.invokeSimple ⟨1⟩ [])]
      <+: (startNewBuildLoop 3 Server.env .background "folder/myjob".toList [] 10 3
            (Server.start resubmitServer)).trace :=
  ((startNewBuild_zero_queue_identifier 3 Server.env .background "folder/myjob".toList [] 10).1
    2 (Server.start resubmitServer) _ _ ⟨1⟩ [] rfl rfl rfl rfl).2 ⟨1⟩ _ rfl rfl
    (by intro h; have := congrArg Run.result h; revert this; decide)

/-- Counterexample to C4 as stated: on `mergingServer`, under a context
without deadline, the first submission gets queue identifier 0 and the job
lookup of the next round fails; `startNewBuild` returns that failure and the
job is not submitted again. -/
theorem startNewBuild_not_resubmitted_when_lookup_fails :
    (startNewBuild 5 Server.env .background "folder/myjob".toList [] 10
        (Server.start mergingServer)).result
      = some (none, some (errors.Wrapf internal500 "Failed to get job folder/myjob".toList))
    ∧ (startNewBuild 5 Server.env .background "folder/myjob".toList [] 10
        (Server.start mergingServer)).trace
      = [.call (.getJob "folder/myjob".toList []), .call (.invokeSimple ⟨1⟩ []),
          .sleep 1000000000, .call (.getJob "folder/myjob".toList [])]
    ∧ submissions (startNewBuild 5 Server.env .background "folder/myjob".toList [] 10
        (Server.start mergingServer)).trace = 1 := by
  refine ⟨by decide, by decide, by decide⟩

end JenkinsClient
